import Mathlib

set_option maxRecDepth 200000
set_option maxHeartbeats 2000000

/-!
Verification of the two HTML batch patchers in this repository
(`add-text-size-control.py` and `add-dark-mode-toggle.py`).

Page content is modelled as `List Char`.  The two scripts use only
Python substring tests (`in`) and `re.search`/`re.sub` with patterns
built from literal fragments separated by greedy whitespace runs
(the class matched by Python's regular-expression escape for
whitespace).  Every literal fragment in those patterns begins with a
non-whitespace character, so the greedy runs never backtrack and each
pattern has a deterministic leftmost match; the matchers below embed
exactly that semantics.  `re.sub` without a count argument replaces
every non-overlapping match scanning left to right (`subAllF`, with
fuel bounded by the content length); `count=1` replaces only the
leftmost match (`subOnceL`).
-/

/-- Python's whitespace character class (the class matched by the
regular-expression whitespace escape for `str` patterns): ASCII
whitespace together with the Unicode whitespace codepoints. -/
def isPySpace (c : Char) : Bool :=
  (9 ≤ c.val && c.val ≤ 13) || c.val == 32 || (28 ≤ c.val && c.val ≤ 31) ||
  c.val == 133 || c.val == 160 || c.val == 5760 ||
  (8192 ≤ c.val && c.val ≤ 8202) || c.val == 8232 || c.val == 8233 ||
  c.val == 8239 || c.val == 8287 || c.val == 12288

/-- Match a literal fragment at the head of the input; on success return
the remainder of the input. -/
def matchLit : List Char → List Char → Option (List Char)
  | [], l => some l
  | _ :: _, [] => none
  | n :: ns, c :: cs => if n = c then matchLit ns cs else none

/-- The needle occurs at the head of the haystack (entirely inside it). -/
def litHere (n l : List Char) : Bool := (matchLit n l).isSome

/-- The needle provably fails to occur at the head of the haystack, no
matter how the haystack is extended on the right: some character of the
overlap already mismatches. -/
def clashes : List Char → List Char → Bool
  | [], _ => false
  | _ :: _, [] => false
  | n :: ns, c :: cs => !(n = c : Bool) || clashes ns cs

/-- Python's substring test `needle in haystack`. -/
def containsSub (n : List Char) : List Char → Bool
  | [] => (matchLit n []).isSome
  | c :: cs => litHere n (c :: cs) || containsSub n cs

/-- Number of positions of the haystack at which the needle occurs. -/
def countOcc (n : List Char) : List Char → Nat
  | [] => if litHere n [] then 1 else 0
  | c :: cs => (if litHere n (c :: cs) then 1 else 0) + countOcc n cs

/-- At every position of the block, the needle either occurs entirely
inside the block or already mismatches inside the block; hence
occurrence counts across the block are independent of what follows it. -/
def cleanBlock (n : List Char) : List Char → Bool
  | [] => true
  | c :: cs => (litHere n (c :: cs) || clashes n (c :: cs)) && cleanBlock n cs

/-- No occurrence of the needle can straddle the boundary between an
arbitrary left context and the block `K`: every proper tail of the
needle mismatches against `K`. -/
def noCross (n K : List Char) : Bool :=
  (List.range n.length).all fun k => k == 0 || clashes (n.drop k) K

/-- The needle is nonempty and starts with a non-whitespace character. -/
def headNonWs : List Char → Bool
  | [] => false
  | c :: _ => !isPySpace c

/-- No tail of the block becomes empty after stripping whitespace,
i.e. the block has no all-whitespace suffix. -/
def noAllWsDrop : List Char → Bool
  | [] => true
  | c :: cs => !((c :: cs).dropWhile isPySpace).isEmpty && noAllWsDrop cs

/-- Model of re.sub with count=1: replace the leftmost match.  The matcher returns the fully instantiated replacement text and
the input remaining after the match (all our patterns match at least
one character). -/
def subOnceL (m : List Char → Option (List Char × List Char)) : List Char → List Char
  | [] => []
  | c :: cs =>
    match m (c :: cs) with
    | some (rep, r) => rep ++ r
    | none => c :: subOnceL m cs

/-- Model of re.sub without a count argument: replace every
non-overlapping match, scanning left to right.  Fuel-indexed; any fuel
at least the length of the input is sufficient since every match of our
patterns consumes at least one character. -/
def subAllF (m : List Char → Option (List Char × List Char)) : Nat → List Char → List Char
  | 0, l => l
  | _ + 1, [] => []
  | f + 1, c :: cs =>
    match m (c :: cs) with
    | some (rep, r) => rep ++ subAllF m f r
    | none => c :: subAllF m f cs

/-- Number of non-overlapping matches found by the left-to-right scan. -/
def numMatchesF (m : List Char → Option (List Char × List Char)) : Nat → List Char → Nat
  | 0, _ => 0
  | _ + 1, [] => 0
  | f + 1, c :: cs =>
    match m (c :: cs) with
    | some (_, r) => 1 + numMatchesF m f r
    | none => numMatchesF m f cs

/-- Model of re.search: does the pattern match anywhere in the input? -/
def hasMatchL (m : List Char → Option (List Char × List Char)) : List Char → Bool
  | [] => false
  | c :: cs => (m (c :: cs)).isSome || hasMatchL m cs

/-- The `TEXT_SIZE_CONTROL` snippet of `add-text-size-control.py`,
byte for byte. -/
def TEXT_SIZE_CONTROL : String := "\n  <!-- Text Size Adjustment Tool -->\n  <div class=\"text-size-control\">\n    <button class=\"text-size-btn\" onclick=\"adjustTextSize('decrease')\" aria-label=\"Decrease text size\">\n      <i data-lucide=\"minus\"></i>\n    </button>\n    <button class=\"text-size-btn active\" onclick=\"adjustTextSize('reset')\" aria-label=\"Reset text size\">\n      <i data-lucide=\"type\"></i>\n    </button>\n    <button class=\"text-size-btn\" onclick=\"adjustTextSize('increase')\" aria-label=\"Increase text size\">\n      <i data-lucide=\"plus\"></i>\n    </button>\n  </div>\n  <script>\n  (function() \x7b\n    const sizes = ['small', 'normal', 'large'];\n    const fontSizes = \x7b small: '15px', normal: '16px', large: '18px' \x7d;\n    \n    function adjustTextSize(action) \x7b\n      let currentSize = localStorage.getItem('textSize') || 'normal';\n      let newSize = currentSize;\n      \n      if (action === 'decrease') \x7b\n        if (currentSize === 'normal') newSize = 'small';\n        else if (currentSize === 'large') newSize = 'normal';\n      \x7d else if (action === 'increase') \x7b\n        if (currentSize === 'small') newSize = 'normal';\n        else if (currentSize === 'normal') newSize = 'large';\n      \x7d else if (action === 'reset') \x7b\n        newSize = 'normal';\n      \x7d\n      \n      localStorage.setItem('textSize', newSize);\n      applyTextSize(newSize);\n      updateButtons(newSize);\n    \x7d\n    \n    function applyTextSize(size) \x7b\n      document.documentElement.style.fontSize = fontSizes[size];\n    \x7d\n    \n    function updateButtons(size) \x7b\n      const buttons = document.querySelectorAll('.text-size-btn');\n      buttons.forEach(btn => btn.classList.remove('active'));\n      \n      if (size === 'small') buttons[0].classList.add('active');\n      else if (size === 'normal') buttons[1].classList.add('active');\n      else if (size === 'large') buttons[2].classList.add('active');\n    \x7d\n    \n    // Initialize on page load\n    const savedSize = localStorage.getItem('textSize') || 'normal';\n    applyTextSize(savedSize);\n    \n    // Update buttons after lucide icons are loaded\n    document.addEventListener('DOMContentLoaded', () => \x7b\n      updateButtons(savedSize);\n    \x7d);\n    \n    // Make function globally available\n    window.adjustTextSize = adjustTextSize;\n  \x7d)();\n  </script>\n"

/-- The `DARK_MODE_TOGGLE_AND_SCRIPT` snippet of
`add-dark-mode-toggle.py`, byte for byte. -/
def DARK_MODE_TOGGLE_AND_SCRIPT : String := "  </div><!-- /site-controls -->\n  <script>\n  (function() \x7b\n    function toggleTheme() \x7b\n      var isDark = document.documentElement.getAttribute(\"data-theme\") === \"dark\";\n      var newTheme = isDark ? \"light\" : \"dark\";\n      document.documentElement.setAttribute(\"data-theme\", newTheme);\n      localStorage.setItem(\"theme\", newTheme);\n      lucide.createIcons();\n    \x7d\n    var saved = localStorage.getItem(\"theme\");\n    if (saved === \"dark\" || (!saved && window.matchMedia(\"(prefers-color-scheme: dark)\").matches)) \x7b\n      document.documentElement.setAttribute(\"data-theme\", \"dark\");\n    \x7d\n    window.toggleTheme = toggleTheme;\n  \x7d)();\n  </script>\n"

def tsSnippetL : List Char := TEXT_SIZE_CONTROL.toList

def dmSnippetL : List Char := DARK_MODE_TOGGLE_AND_SCRIPT.toList

/-- Literal fragment of the anchor pattern of the Text-Size Patcher:
the lucide icon-initialization script tag. -/
def lucideTag : List Char := ("<script>lucide.createIcons();</script>").toList

/-- Literal fragment of the anchor pattern: the body-close tag. -/
def bodyClose : List Char := ("</body>").toList

/-- The already-patched marker of the Text-Size Patcher. -/
def tsMarker : List Char := ("text-size-control").toList

/-- The dark-mode already-patched marker. -/
def toggleMarker : List Char := ("toggleTheme").toList

/-- The text-size-control prerequisite marker tested by the Dark-Mode
Patcher. -/
def tscDiv : List Char := ("<div class=\"text-size-control\">").toList

/-- The site-controls wrapper marker. -/
def scDiv : List Char := ("<div class=\"site-controls\">").toList

/-- The theme-toggle button marker. -/
def themeBtn : List Char := ("<button class=\"theme-toggle\"").toList

/-- The wrapper-close marker. -/
def scClose : List Char := ("</div><!-- /site-controls -->").toList

/-- The comment opening the text-size block, first literal of the
wrap-insertion pattern. -/
def tsComment : List Char := ("<!-- Text Size Adjustment Tool -->").toList

/-- First literal fragment of the script-insertion pattern. -/
def wAdjust : List Char := ("window.adjustTextSize = adjustTextSize;").toList

/-- Second literal fragment of the script-insertion pattern. -/
def closeParens : List Char := ("\x7d)();").toList

/-- Third literal fragment of the script-insertion pattern. -/
def scriptClose : List Char := ("</script>").toList

/-- The toggle-function marker: the function definition inserted by the
dark-mode script block. -/
def funToggle : List Char := ("function toggleTheme()").toList

/-- Replacement text inserted after group 1 by the wrap substitution of
the Dark-Mode Patcher (its backslash escapes already processed). -/
def wrapInsL : List Char := ("<div class=\"site-controls\">\n  <button class=\"theme-toggle\" onclick=\"toggleTheme()\" aria-label=\"Toggle dark mode\">\n    <span class=\"icon-sun\"><i data-lucide=\"sun\"></i></span>\n    <span class=\"icon-moon\"><i data-lucide=\"moon\"></i></span>\n  </button>\n  <div class=\"text-size-control\">").toList

/-- Replacement text inserted after group 1 by the button substitution
of the Dark-Mode Patcher (its backslash escapes already processed). -/
def btnInsL : List Char := ("<button class=\"theme-toggle\" onclick=\"toggleTheme()\" aria-label=\"Toggle dark mode\">\n    <span class=\"icon-sun\"><i data-lucide=\"sun\"></i></span>\n    <span class=\"icon-moon\"><i data-lucide=\"moon\"></i></span>\n  </button>\n  <div class=\"text-size-control\">").toList

/-- Two newlines, inserted around the dark-mode script block by the
replacement template. -/
def nl2L : List Char := ("\n\n").toList

/-- Matcher for the Text-Size Patcher's anchor pattern: a greedy
whitespace run, the lucide tag, a greedy whitespace run, the body-close
tag.  Returns the matched text (which is also group 1) and the rest. -/
def tsAnchorMatch (l : List Char) : Option (List Char × List Char) :=
  match matchLit lucideTag (l.dropWhile isPySpace) with
  | none => none
  | some r2 =>
    match matchLit bodyClose (r2.dropWhile isPySpace) with
    | none => none
    | some r4 =>
      some (l.takeWhile isPySpace ++ (lucideTag ++ (r2.takeWhile isPySpace ++ bodyClose)), r4)

/-- The substitution of the Text-Size Patcher: the replacement template
is the snippet followed by group 1 (the whole match). -/
def tsSubMatch (l : List Char) : Option (List Char × List Char) :=
  match tsAnchorMatch l with
  | none => none
  | some (t, r) => some (tsSnippetL ++ t, r)

/-- Outcome of one run of `add_text_size_control` on one file: the
skip-because-already-patched branch, the modifying branch (returns
True), and the anchor-not-found branch. -/
inductive TSOutcome
  | alreadyHas
  | added
  | noAnchor
deriving DecidableEq

/-- The per-file content transformation of `add_text_size_control`
(lines 75-103 of `add-text-size-control.py`): skip if the marker is
present, otherwise substitute at the anchor pattern (a substitution
without a count argument, hence at every non-overlapping match) and
write, otherwise report no insertion point. -/
def add_text_size_control (content : List Char) : TSOutcome × List Char :=
  if containsSub tsMarker content then (TSOutcome.alreadyHas, content)
  else if hasMatchL tsSubMatch content then
    (TSOutcome.added, subAllF tsSubMatch content.length content)
  else (TSOutcome.noAnchor, content)

/-- Matcher for the wrap pattern of the Dark-Mode Patcher, with the
replacement template already applied: group 1 is the comment plus the
whitespace run, and the inserted wrapper-plus-button text ends with the
text-size-control div consumed by the pattern. -/
def dmWrapMatch (l : List Char) : Option (List Char × List Char) :=
  match matchLit tsComment l with
  | none => none
  | some r1 =>
    match matchLit tscDiv (r1.dropWhile isPySpace) with
    | none => none
    | some r2 => some (tsComment ++ (r1.takeWhile isPySpace ++ wrapInsL), r2)

/-- Last step of the script-insertion matcher: group 1 has been
recognised, a whitespace run and the lucide tag (group 2) remain. -/
def dmScriptFinish (g1 r : List Char) : Option (List Char × List Char) :=
  match matchLit lucideTag (r.dropWhile isPySpace) with
  | none => none
  | some r4 => some (g1 ++ (nl2L ++ (dmSnippetL ++ (nl2L ++ lucideTag))), r4)

/-- Matcher for the script-insertion pattern of the Dark-Mode Patcher:
group 1 is a greedy whitespace run, the window.adjustTextSize line, a
whitespace run, the closing parentheses, a whitespace run and the
script-close tag; then a whitespace run (dropped by the replacement)
and group 2, the lucide tag.  The replacement template is group 1, two
newlines, the dark-mode snippet, two newlines, group 2. -/
def dmScriptMatch (l : List Char) : Option (List Char × List Char) :=
  match matchLit wAdjust (l.dropWhile isPySpace) with
  | none => none
  | some r1 =>
    match matchLit closeParens (r1.dropWhile isPySpace) with
    | none => none
    | some r2 =>
      match matchLit scriptClose (r2.dropWhile isPySpace) with
      | none => none
      | some r3 =>
        dmScriptFinish
          (l.takeWhile isPySpace ++ (wAdjust ++ (r1.takeWhile isPySpace ++ (closeParens ++ (r2.takeWhile isPySpace ++ scriptClose)))))
          r3

/-- Matcher for the button-insertion pattern of the Dark-Mode Patcher,
replacement applied: group 1 is the wrapper div plus the whitespace
run, and the inserted button text ends with the text-size-control div
consumed by the pattern. -/
def dmBtnMatch (l : List Char) : Option (List Char × List Char) :=
  match matchLit scDiv l with
  | none => none
  | some r1 =>
    match matchLit tscDiv (r1.dropWhile isPySpace) with
    | none => none
    | some r2 => some (scDiv ++ (r1.takeWhile isPySpace ++ btnInsL), r2)

/-- Outcome of one run of `add_dark_mode_toggle` on one file, one
constructor per console message of the source. -/
inductive DMOutcome
  | alreadyToggled
  | missingPrereq
  | addedToggle
  | addedButton
  | alreadyComplete
deriving DecidableEq

/-- The boolean value returned to `main` for each outcome (`True` for
the two writing branches, `False` for the three skip branches). -/
def dmReturnFlag : DMOutcome → Bool
  | DMOutcome.addedToggle => true
  | DMOutcome.addedButton => true
  | _ => false

/-- The per-file content transformation of `add_dark_mode_toggle`
(lines 29-82 of `add-dark-mode-toggle.py`), branches in source order:
already toggled, missing prerequisite, wrap-and-script insertion,
button insertion (with conditional script insertion), already
complete. -/
def add_dark_mode_toggle (content : List Char) : DMOutcome × List Char :=
  if containsSub toggleMarker content then (DMOutcome.alreadyToggled, content)
  else if containsSub tscDiv content = false then (DMOutcome.missingPrereq, content)
  else if containsSub scDiv content = false then
    (DMOutcome.addedToggle, subOnceL dmScriptMatch (subOnceL dmWrapMatch content))
  else if containsSub themeBtn content = false then
    (DMOutcome.addedButton,
      if containsSub scClose (subOnceL dmBtnMatch content) = false then
        subOnceL dmScriptMatch (subOnceL dmBtnMatch content)
      else subOnceL dmBtnMatch content)
  else (DMOutcome.alreadyComplete, content)

/-- The three client-side text sizes of the injected snippet. -/
inductive TextSize
  | small
  | normal
  | large
deriving DecidableEq

/-- The three actions of the injected snippet's buttons. -/
inductive SizeAction
  | decrease
  | increase
  | reset
deriving DecidableEq

/-- The `adjustTextSize` state transition of the snippet inside
`TEXT_SIZE_CONTROL` (lines 28-45 of the source): each branch of the
JavaScript if-chain, with the current size unchanged when no branch
applies. -/
def adjustTextSize (currentSize : TextSize) (action : SizeAction) : TextSize :=
  match action with
  | SizeAction.decrease =>
    match currentSize with
    | TextSize.normal => TextSize.small
    | TextSize.large => TextSize.normal
    | TextSize.small => TextSize.small
  | SizeAction.increase =>
    match currentSize with
    | TextSize.small => TextSize.normal
    | TextSize.normal => TextSize.large
    | TextSize.large => TextSize.large
  | SizeAction.reset => TextSize.normal

/-- A scanned HTML file: its directory path and its file name. -/
structure HtmlFile where
  dir : List String
  name : String
deriving DecidableEq

/-- The excluded file name, identical in both scripts. -/
def excludedName : String := "text-size-control.html"

/-- File selection of `main` in `add-text-size-control.py` (lines
109-110): drop the excluded name from the glob result. -/
def selectHtmlFilesTS (files : List HtmlFile) : List HtmlFile :=
  files.filter fun f => f.name != excludedName

/-- File selection of `main` in `add-dark-mode-toggle.py` (lines
88-89): drop the excluded name from the glob result. -/
def selectHtmlFilesDM (files : List HtmlFile) : List HtmlFile :=
  files.filter fun f => f.name != excludedName

/-- Outcome of the second run of the Text-Size Patcher as a function of
the first run's outcome: a modifying first run (and an already-patched
one) is followed by the already-patched skip, an anchorless first run
by another anchorless skip. -/
def tsSecondOutcome : TSOutcome → TSOutcome
  | TSOutcome.added => TSOutcome.alreadyHas
  | TSOutcome.alreadyHas => TSOutcome.alreadyHas
  | TSOutcome.noAnchor => TSOutcome.noAnchor

/-- The three leading characters of the text-size snippet (a newline
and two spaces), also the whitespace run between its comment and its
text-size-control div. -/
def tsHd3 : List Char := ("\n  ").toList

/-- Group 1 of the script-insertion pattern as it occurs at the end of
the text-size snippet: the newline-led window.adjustTextSize line, the
closing parentheses and the script-close tag. -/
def g1L : List Char := ("\n    window.adjustTextSize = adjustTextSize;\n  \x7d)();\n  </script>").toList

/-- The text-size snippet after its text-size-control div: everything
from the first button line onwards. -/
def tsAfterDivL : List Char := tsSnippetL.drop 71

/-- The middle of the text-size snippet: from after its
text-size-control div up to (excluding) the group-1 region and the
trailing newline. -/
def tsMid2L : List Char := (tsSnippetL.drop 71).take 2106

/-- The text-size snippet after the Dark-Mode Patcher's wrap
substitution (wrapper open plus theme button inserted before the
text-size-control div), written out componentwise. -/
def tsWrappedL : List Char := (tsHd3 ++ (tsComment ++ tsHd3)) ++ (wrapInsL ++ tsAfterDivL)

/-- Everything of the wrapped snippet before the final group-1 region
and the trailing newline. -/
def tsFrontL : List Char := (tsHd3 ++ (tsComment ++ tsHd3)) ++ (wrapInsL ++ tsMid2L)

/-- The fully patched block produced by the Dark-Mode Patcher's state-C
branch: the wrapped snippet with the whitespace before the lucide tag
replaced by two newlines, the dark-mode snippet and two newlines. -/
def dmPatchedL : List Char :=
  (tsHd3 ++ (tsComment ++ tsHd3)) ++
    (wrapInsL ++ (tsMid2L ++ (g1L ++ (nl2L ++ (dmSnippetL ++ (nl2L ++ lucideTag))))))

/-- Number of non-overlapping anchor matches the Text-Size Patcher's
substitution acts on. -/
def tsAnchorCount (l : List Char) : Nat := numMatchesF tsSubMatch l.length l

/-- The core of the text-size snippet: everything from the
text-size-control div to the closing script tag (the snippet minus its
leading newline, comment line and trailing newline). -/
def tscCoreL : List Char := (tsSnippetL.drop 40).take 2201

/-- The head of the text-size snippet before its core. -/
def tsHeadL : List Char := tsHd3 ++ (tsComment ++ tsHd3)

/-- Content with two adjacent anchor occurrences and no already-patched
marker. -/
def cexMultiAnchor : List Char :=
  ("<script>lucide.createIcons();</script></body> <script>lucide.createIcons();</script>\n</body>").toList

/-- Content containing the theme-toggle button marker, the wrapper
marker and the prerequisite marker but not the toggleTheme marker. -/
def cexBtnNoToggle : List Char := tscDiv ++ (scDiv ++ themeBtn)

/-- State-D content in which the wrapper div is not followed (up to
whitespace) by the text-size-control div, and the wrapper close marker
is present. -/
def cexPhantom : List Char :=
  ("<div class=\"site-controls\">Y<div class=\"text-size-control\">x</div><!-- /site-controls -->").toList

/-- Same shape as `cexPhantom`, used to refute the universal state-D
claim: the button-insertion pattern does not match, so no button is
gained. -/
def cexNoBtnGain : List Char :=
  ("<div class=\"site-controls\">X<div class=\"text-size-control\">x</div><!-- /site-controls -->").toList

/-- A small page with one anchor occurrence. -/
def witnessPage : List Char :=
  ("<html><body><p>hi</p>\n  <script>lucide.createIcons();</script>\n</body></html>\n").toList

/-- Leading part of the state-C witness content. -/
def witCPre : List Char := ("<html><body><p>hi</p>").toList

/-- Trailing part of the state-C witness content. -/
def witCPost : List Char := ("\n</body></html>\n").toList

/-- Leading part of the state-D witness content. -/
def witDPre : List Char := ("<html><body>").toList

/-- Trailing part of the state-D witness content. -/
def witDPost : List Char := ("x</div>\n</div><!-- /site-controls -->\n</body></html>").toList

/-- A two-element scan result for the exclusion witness. -/
def witnessFiles : List HtmlFile :=
  [⟨["docs", "sub"], "text-size-control.html"⟩, ⟨["docs"], "index.html"⟩]

/-- The inserted wrapper-and-button text without its trailing
text-size-control div. -/
def wrapFrontL : List Char := wrapInsL.take 250

/-- Trailing part of the state-D witness content, without the
wrapper-close marker (so the witness exercises the sub-case in which
the script substitution also runs). -/
def witDTail : List Char := ("x</div>\n</body></html>").toList

/-- The first anchor occurrence of `cexMultiAnchor`. -/
def anchA1 : List Char := ("<script>lucide.createIcons();</script></body>").toList

/-- The second anchor occurrence of `cexMultiAnchor`, with its leading
whitespace. -/
def anchA2 : List Char := (" <script>lucide.createIcons();</script>\n</body>").toList

/-- Matching a literal against itself followed by anything succeeds and
returns the remainder. -/
theorem matchLit_self_append (n r : List Char) : matchLit n (n ++ r) = some r := by
  induction n with
  | nil => rfl
  | cons c ns ih => simp [matchLit, ih]

/-- A successful literal match decomposes the input. -/
theorem matchLit_eq_append : ∀ {n l r : List Char}, matchLit n l = some r → l = n ++ r := by
  intro n
  induction n with
  | nil => intro l r h; simpa [matchLit] using h
  | cons c ns ih =>
    intro l r h
    cases l with
    | nil => simp [matchLit] at h
    | cons d ds =>
      simp only [matchLit] at h
      split at h
      · next hcd => subst hcd; simpa using ih h
      · exact absurd h (by simp)

/-- An occurrence at the head survives extending the haystack. -/
theorem litHere_mono {n a : List Char} (h : litHere n a = true) (z : List Char) :
    litHere n (a ++ z) = true := by
  obtain ⟨r, hr⟩ := Option.isSome_iff_exists.mp h
  have := matchLit_eq_append hr
  subst this
  simp [litHere, List.append_assoc, matchLit_self_append]

/-- A clash inside the overlap rules out an occurrence however the
haystack is extended. -/
theorem clashes_litHere_append :
    ∀ (n h : List Char), clashes n h = true → ∀ z, litHere n (h ++ z) = false := by
  intro n
  induction n with
  | nil => intro h hc; simp [clashes] at hc
  | cons c ns ih =>
    intro h hc z
    cases h with
    | nil => simp [clashes] at hc
    | cons d ds =>
      simp only [clashes, Bool.or_eq_true, Bool.not_eq_true'] at hc
      by_cases hcd : c = d
      · rcases hc with hc | hc
        · simp [hcd] at hc
        · simpa [litHere, matchLit, hcd] using ih ds hc z
      · simp [litHere, matchLit, hcd]

/-- A clash also rules out the occurrence in the unextended haystack. -/
theorem clashes_litHere {n h : List Char} (hc : clashes n h = true) :
    litHere n h = false := by
  have := clashes_litHere_append n h hc []
  simpa using this

/-- An occurrence at the head of an appended list lies inside the left
part or continues into the right part at an offset shorter than the
needle. -/
theorem litHere_split :
    ∀ (a n z : List Char), litHere n (a ++ z) = true →
      litHere n a = true ∨ (a.length < n.length ∧ litHere (n.drop a.length) z = true) := by
  intro a
  induction a with
  | nil =>
    intro n z h
    cases n with
    | nil => left; rfl
    | cons c ns => right; exact ⟨by simp, by simpa using h⟩
  | cons b bs ih =>
    intro n z h
    cases n with
    | nil => left; rfl
    | cons c ns =>
      simp only [List.cons_append, litHere, matchLit] at h
      split at h
      · next hcb =>
        subst hcb
        rcases ih ns z h with h1 | ⟨h2, h3⟩
        · left; simpa [litHere, matchLit] using h1
        · right
          exact ⟨by simpa [Nat.succ_lt_succ_iff] using h2, by simpa using h3⟩
      · simp [Option.isSome] at h

/-- Unfold `noCross` at one offset. -/
theorem noCross_spec {n K : List Char} (hnc : noCross n K = true)
    {k : Nat} (hk0 : 0 < k) (hk : k < n.length) : clashes (n.drop k) K = true := by
  have h := (List.all_eq_true.mp hnc) k (List.mem_range.mpr hk)
  rcases Bool.or_eq_true_iff.mp h with h1 | h1
  · exact absurd (beq_iff_eq.mp h1) (Nat.pos_iff_ne_zero.mp hk0)
  · exact h1

/-- With no crossing into the block `K`, an occurrence at the head of
`a ++ K ++ X` is exactly an occurrence at the head of `a`. -/
theorem litHere_append_noCross {n K : List Char} (hnc : noCross n K = true)
    {a : List Char} (ha : a ≠ []) (X : List Char) :
    litHere n (a ++ (K ++ X)) = litHere n a := by
  cases hl : litHere n a with
  | true => simpa using litHere_mono hl (K ++ X)
  | false =>
    cases hl2 : litHere n (a ++ (K ++ X)) with
    | false => rfl
    | true =>
      rcases litHere_split a n (K ++ X) hl2 with h1 | ⟨h2, h3⟩
      · rw [hl] at h1; exact absurd h1 (by simp)
      · have hk0 : 0 < a.length := List.length_pos.mpr ha
        have hc := noCross_spec hnc hk0 h2
        have := clashes_litHere_append _ _ hc X
        rw [this] at h3
        exact absurd h3 (by simp)

/-- A nonempty needle has no occurrence in the empty haystack. -/
theorem countOcc_nil {n : List Char} (hn : n ≠ []) : countOcc n [] = 0 := by
  cases n with
  | nil => exact absurd rfl hn
  | cons c ns => simp [countOcc, litHere, matchLit]

/-- Occurrence counts split at a block that no occurrence can cross
into. -/
theorem countOcc_append_noCross {n K : List Char} (hnc : noCross n K = true)
    (hn : n ≠ []) : ∀ (a X : List Char),
    countOcc n (a ++ (K ++ X)) = countOcc n a + countOcc n (K ++ X) := by
  intro a
  induction a with
  | nil => intro X; simp [countOcc_nil hn]
  | cons c cs ih =>
    intro X
    have hlit := litHere_append_noCross hnc (a := c :: cs) (by simp) X
    simp only [List.cons_append] at hlit ⊢
    simp only [countOcc]
    rw [hlit, ih X]
    omega

/-- Occurrence counts split at a clean block: every position of the
block is decided inside the block. -/
theorem countOcc_append_cleanBlock {n : List Char} (hn : n ≠ []) :
    ∀ (B : List Char), cleanBlock n B = true →
      ∀ X, countOcc n (B ++ X) = countOcc n B + countOcc n X := by
  intro B
  induction B with
  | nil => intro _ X; simp [countOcc_nil hn]
  | cons c cs ih =>
    intro hcb X
    simp only [cleanBlock, Bool.and_eq_true, Bool.or_eq_true] at hcb
    obtain ⟨hhead, htail⟩ := hcb
    have hlit : litHere n (c :: (cs ++ X)) = litHere n (c :: cs) := by
      rcases hhead with hh | hh
      · rw [hh]
        simpa using litHere_mono hh X
      · rw [clashes_litHere hh]
        simpa using clashes_litHere_append _ _ hh X
    simp only [List.cons_append, countOcc, List.append_eq]
    simp only [hlit, ih htail X]
    omega

/-- An all-whitespace run contributes no occurrence of a needle whose
head is not whitespace. -/
theorem countOcc_append_ws {n : List Char} (hn : headNonWs n = true) :
    ∀ {a : List Char}, a.all isPySpace = true →
      ∀ X, countOcc n (a ++ X) = countOcc n X := by
  intro a
  induction a with
  | nil => intro _ X; simp
  | cons c cs ih =>
    intro hws X
    simp only [List.all_cons, Bool.and_eq_true] at hws
    obtain ⟨hc, hcs⟩ := hws
    cases n with
    | nil => simp [headNonWs] at hn
    | cons d ds =>
      have hdc : ¬ d = c := by
        intro h
        subst h
        simp only [headNonWs, Bool.not_eq_true'] at hn
        rw [hn] at hc
        exact absurd hc (by simp)
      simp only [List.cons_append, countOcc, litHere, matchLit, hdc]
      simpa using ih hcs X

/-- An occurrence at the head witnesses the substring test. -/
theorem containsSub_of_litHere : ∀ {n l : List Char}, litHere n l = true →
    containsSub n l = true := by
  intro n l h
  cases l with
  | nil => simpa [containsSub, litHere] using h
  | cons c cs => simp [containsSub, h]

/-- The substring test survives extending the haystack on the right. -/
theorem containsSub_append_left : ∀ {n a : List Char}, containsSub n a = true →
    ∀ b, containsSub n (a ++ b) = true := by
  intro n a
  induction a with
  | nil =>
    intro h b
    have hn : n = [] := by
      cases n with
      | nil => rfl
      | cons c cs => simp [containsSub, matchLit] at h
    subst hn
    exact containsSub_of_litHere (by cases b <;> simp [litHere, matchLit])
  | cons c cs ih =>
    intro h b
    simp only [containsSub, Bool.or_eq_true] at h
    rcases h with h | h
    · simpa [containsSub] using Or.inl (litHere_mono h b)
    · simp [containsSub, ih h b]

/-- The substring test survives extending the haystack on the left. -/
theorem containsSub_append_right : ∀ {n b : List Char}, containsSub n b = true →
    ∀ a, containsSub n (a ++ b) = true := by
  intro n b h a
  induction a with
  | nil => simpa using h
  | cons c cs ih => simp [containsSub, ih]

/-- A failed substring test rules out an occurrence at every tail. -/
theorem containsSub_false_drop : ∀ {n l : List Char}, containsSub n l = false →
    ∀ i, litHere n (l.drop i) = false := by
  intro n l
  induction l with
  | nil =>
    intro h i
    simpa [containsSub, litHere, List.drop_nil] using h
  | cons c cs ih =>
    intro h i
    simp only [containsSub, Bool.or_eq_false_iff] at h
    obtain ⟨h1, h2⟩ := h
    cases i with
    | zero => simpa using h1
    | succ j => simpa using ih h2 j

/-- A failed substring test on an appended haystack fails on the left
part. -/
theorem containsSub_false_left {n a b : List Char}
    (h : containsSub n (a ++ b) = false) : containsSub n a = false := by
  cases hc : containsSub n a with
  | false => rfl
  | true => rw [containsSub_append_left hc b] at h; exact absurd h (by simp)

/-- A failed substring test on an appended haystack fails on the right
part. -/
theorem containsSub_false_right {n a b : List Char}
    (h : containsSub n (a ++ b) = false) : containsSub n b = false := by
  cases hc : containsSub n b with
  | false => rfl
  | true => rw [containsSub_append_right hc a] at h; exact absurd h (by simp)

/-- A failed substring test means zero occurrences. -/
theorem countOcc_eq_zero : ∀ {n l : List Char}, containsSub n l = false →
    countOcc n l = 0 := by
  intro n l
  induction l with
  | nil => intro h; simpa [containsSub, countOcc, litHere] using h
  | cons c cs ih =>
    intro h
    simp only [containsSub, Bool.or_eq_false_iff] at h
    obtain ⟨h1, h2⟩ := h
    simp [countOcc, h1, ih h2]

/-- An occurrence of a composite needle yields an occurrence of its
middle part. -/
theorem containsSub_of_litHere_mid :
    ∀ (a : List Char) {mid b l : List Char}, litHere (a ++ (mid ++ b)) l = true →
      containsSub mid l = true := by
  intro a
  induction a with
  | nil =>
    intro mid b l h
    simp only [List.nil_append] at h
    obtain ⟨r, hr⟩ := Option.isSome_iff_exists.mp h
    have := matchLit_eq_append hr
    subst this
    exact containsSub_of_litHere (by simp [litHere, List.append_assoc, matchLit_self_append])
  | cons x xs ih =>
    intro mid b l h
    cases l with
    | nil => simp [litHere, matchLit] at h
    | cons c cs =>
      simp only [List.cons_append, litHere, matchLit] at h
      split at h
      · next hxc =>
        have hrec : litHere (xs ++ (mid ++ b)) cs = true := by simpa [litHere] using h
        have := ih hrec
        simp [containsSub, this]
      · simp [Option.isSome] at h

/-- A substring occurrence of a composite needle yields one of its
middle part. -/
theorem containsSub_mid {a mid b : List Char} :
    ∀ {l : List Char}, containsSub (a ++ (mid ++ b)) l = true →
      containsSub mid l = true := by
  intro l
  induction l with
  | nil =>
    intro h
    cases hn : a ++ (mid ++ b) with
    | nil =>
      have hm : mid = [] := by
        rcases List.append_eq_nil.mp hn with ⟨_, h2⟩
        exact (List.append_eq_nil.mp h2).1
      subst hm
      simp [containsSub, matchLit]
    | cons c cs => rw [hn] at h; simp [containsSub, matchLit] at h
  | cons c cs ih =>
    intro h
    simp only [containsSub, Bool.or_eq_true] at h
    rcases h with h | h
    · exact containsSub_of_litHere_mid a h
    · cases hc : containsSub mid cs with
      | true => simp [containsSub, hc]
      | false => rw [ih h] at hc; exact absurd hc (by simp)

/-- Dropping a while-prefix of an all-satisfying run continues into the
right part. -/
theorem dropWhile_append_all {p : Char → Bool} :
    ∀ {a : List Char}, a.all p = true → ∀ b, (a ++ b).dropWhile p = b.dropWhile p := by
  intro a
  induction a with
  | nil => intro _ b; simp
  | cons c cs ih =>
    intro h b
    simp only [List.all_cons, Bool.and_eq_true] at h
    simp [List.dropWhile, h.1, ih h.2 b]

/-- Taking a while-prefix across an all-satisfying run keeps the run. -/
theorem takeWhile_append_all {p : Char → Bool} :
    ∀ {a : List Char}, a.all p = true → ∀ b, (a ++ b).takeWhile p = a ++ b.takeWhile p := by
  intro a
  induction a with
  | nil => intro _ b; simp
  | cons c cs ih =>
    intro h b
    simp only [List.all_cons, Bool.and_eq_true] at h
    simp [List.takeWhile, h.1, ih h.2 b]

/-- When the while-drop of the left part is nonempty, appending does
not change it except for the tail. -/
theorem dropWhile_ne_nil_append {p : Char → Bool} :
    ∀ {a : List Char}, a.dropWhile p ≠ [] →
      ∀ b, (a ++ b).dropWhile p = a.dropWhile p ++ b := by
  intro a
  induction a with
  | nil => intro h; exact absurd rfl h
  | cons c cs ih =>
    intro h b
    cases hpc : p c with
    | true =>
      have h' : cs.dropWhile p ≠ [] := by simpa [List.dropWhile, hpc] using h
      simp [List.dropWhile, hpc, ih h' b]
    | false => simp [List.dropWhile, hpc]

/-- When the while-drop of the left part is empty, the drop continues
into the right part. -/
theorem dropWhile_nil_append {p : Char → Bool} :
    ∀ {a : List Char}, a.dropWhile p = [] →
      ∀ b, (a ++ b).dropWhile p = b.dropWhile p := by
  intro a
  induction a with
  | nil => intro _ b; simp
  | cons c cs ih =>
    intro h b
    cases hpc : p c with
    | true =>
      have h' : cs.dropWhile p = [] := by simpa [List.dropWhile, hpc] using h
      simp [List.dropWhile, hpc, ih h' b]
    | false => simp [List.dropWhile, hpc] at h

/-- A while-drop is a drop at some index. -/
theorem dropWhile_eq_drop {p : Char → Bool} :
    ∀ (l : List Char), ∃ k, l.dropWhile p = l.drop k := by
  intro l
  induction l with
  | nil => exact ⟨0, rfl⟩
  | cons c cs ih =>
    cases hpc : p c with
    | true =>
      obtain ⟨k, hk⟩ := ih
      exact ⟨k + 1, by simp [List.dropWhile, hpc, hk]⟩
    | false => exact ⟨0, by simp [List.dropWhile, hpc]⟩

/-- A while-take satisfies the predicate throughout. -/
theorem all_takeWhile {p : Char → Bool} : ∀ (l : List Char), (l.takeWhile p).all p = true := by
  intro l
  induction l with
  | nil => rfl
  | cons c cs ih =>
    cases hpc : p c with
    | true => simp [List.takeWhile, hpc, ih]
    | false => simp [List.takeWhile, hpc]

/-- Leftmost-substitution skips a region where the matcher fails at
every position. -/
theorem subOnceL_split (m : List Char → Option (List Char × List Char)) :
    ∀ (a s : List Char), (∀ i, i < a.length → m (a.drop i ++ s) = none) →
      subOnceL m (a ++ s) = a ++ subOnceL m s := by
  intro a
  induction a with
  | nil => intro s _; simp
  | cons c cs ih =>
    intro s h
    have h0 : m (c :: (cs ++ s)) = none := by simpa using h 0 (by simp)
    have hrest : ∀ i, i < cs.length → m (cs.drop i ++ s) = none := by
      intro i hi
      simpa using h (i + 1) (by simpa using Nat.succ_lt_succ hi)
    simp [subOnceL, h0, ih s hrest]

/-- Leftmost-substitution at a position where the matcher succeeds. -/
theorem subOnceL_cons_match {m : List Char → Option (List Char × List Char)}
    {c : Char} {cs rep r : List Char} (h : m (c :: cs) = some (rep, r)) :
    subOnceL m (c :: cs) = rep ++ r := by
  simp [subOnceL, h]

/-- If every replacement produced by the matcher contains the key, a
leftmost substitution either changes nothing or leaves the key in the
result. -/
theorem subOnceL_key {m : List Char → Option (List Char × List Char)} {key : List Char}
    (hm : ∀ l rep r, m l = some (rep, r) → containsSub key rep = true) :
    ∀ l, subOnceL m l = l ∨ containsSub key (subOnceL m l) = true := by
  intro l
  induction l with
  | nil => left; rfl
  | cons c cs ih =>
    cases h : m (c :: cs) with
    | some v =>
      right
      rw [subOnceL_cons_match (by rw [h])]
      exact containsSub_append_left (hm _ _ _ (by rw [h])) v.2
    | none =>
      rcases ih with h1 | h1
      · left; simp [subOnceL, h, h1]
      · right; simp [subOnceL, h, containsSub, h1]

/-- Unfold `noAllWsDrop` at one position. -/
theorem noAllWsDrop_spec : ∀ {B : List Char}, noAllWsDrop B = true →
    ∀ i, i < B.length → (B.drop i).dropWhile isPySpace ≠ [] := by
  intro B
  induction B with
  | nil => intro _ i hi; simp at hi
  | cons c cs ih =>
    intro h i hi
    simp only [noAllWsDrop, Bool.and_eq_true] at h
    cases i with
    | zero =>
      intro hcon
      rw [List.drop_zero] at hcon
      rw [hcon] at h
      simp [List.isEmpty] at h
    | succ j =>
      simpa using ih h.2 j (by simpa using Nat.lt_of_succ_lt_succ hi)

/-- A failed head occurrence makes the literal matcher fail. -/
theorem litHere_false_none {n l : List Char} (h : litHere n l = false) :
    matchLit n l = none := by
  cases hm : matchLit n l with
  | none => rfl
  | some r => rw [litHere, hm] at h; exact absurd h (by simp)

/-- The wrap matcher fails where its leading comment literal fails. -/
theorem dmWrapMatch_none {l : List Char} (h : litHere tsComment l = false) :
    dmWrapMatch l = none := by
  simp [dmWrapMatch, litHere_false_none h]

/-- The button matcher fails where its leading wrapper literal fails. -/
theorem dmBtnMatch_none {l : List Char} (h : litHere scDiv l = false) :
    dmBtnMatch l = none := by
  simp [dmBtnMatch, litHere_false_none h]

/-- The script matcher fails where its first literal fails after the
leading whitespace run. -/
theorem dmScriptMatch_none {l : List Char}
    (h : litHere wAdjust (l.dropWhile isPySpace) = false) :
    dmScriptMatch l = none := by
  simp [dmScriptMatch, litHere_false_none h]

/-- The anchor matcher fails where the lucide tag fails after the
leading whitespace run. -/
theorem tsSubMatch_none {l : List Char}
    (h : litHere lucideTag (l.dropWhile isPySpace) = false) :
    tsSubMatch l = none := by
  simp [tsSubMatch, tsAnchorMatch, litHere_false_none h]

/-- Leftmost substitution on a match at the head (for matchers that
fail on the empty input). -/
theorem subOnceL_some {m : List Char → Option (List Char × List Char)}
    {l rep r : List Char} (h : m l = some (rep, r)) (hnil : m [] = none) :
    subOnceL m l = rep ++ r := by
  cases l with
  | nil => rw [hnil] at h; exact absurd h (by simp)
  | cons c cs => simp [subOnceL, h]

/-- A position strictly inside a list has a nonempty drop. -/
theorem drop_ne_nil {l : List Char} {i : Nat} (hi : i < l.length) : l.drop i ≠ [] := by
  intro h
  have := List.drop_eq_nil_iff.mp h
  omega

/-- With a failed substring test on `B` and no crossing into `K`, the
needle fails at the head of every tail of `B` however extended. -/
theorem litHere_drop_append_noCross {n K B : List Char} (hnc : noCross n K = true)
    (hB : containsSub n B = false) {i : Nat} (hi : i < B.length) (X : List Char) :
    litHere n (B.drop i ++ (K ++ X)) = false := by
  rw [litHere_append_noCross hnc (drop_ne_nil hi) X]
  exact containsSub_false_drop hB i

/-- The wrap matcher fails at every position of a region free of the
comment literal, when the rest of the content starts with a newline. -/
theorem dmWrap_skip {B : List Char} (hB : containsSub tsComment B = false) :
    ∀ i, i < B.length → ∀ T, dmWrapMatch (B.drop i ++ ('\n' :: T)) = none := by
  intro i hi T
  apply dmWrapMatch_none
  have h := litHere_drop_append_noCross (n := tsComment) (K := ['\n']) (by decide) hB hi T
  simpa using h

/-- The button matcher fails at every position of a region free of the
wrapper literal, when the rest of the content starts with the wrapper
literal itself. -/
theorem dmBtn_skip {B : List Char} (hB : containsSub scDiv B = false) :
    ∀ i, i < B.length → ∀ X, dmBtnMatch (B.drop i ++ (scDiv ++ X)) = none := by
  intro i hi X
  exact dmBtnMatch_none (litHere_drop_append_noCross (by decide) hB hi X)

/-- Core of the script-skip lemmas: at a tail of `B` whose whitespace
drop is nonempty, the first literal of the script pattern fails. -/
theorem dmScript_skip_core {B : List Char} (hB : containsSub wAdjust B = false)
    {i : Nat} (hi : i < B.length) (T : List Char)
    (hne : (B.drop i).dropWhile isPySpace ≠ []) :
    dmScriptMatch (B.drop i ++ ('\n' :: T)) = none := by
  apply dmScriptMatch_none
  rw [dropWhile_ne_nil_append hne]
  obtain ⟨k, hk⟩ := dropWhile_eq_drop (B.drop i)
  have hkj : (B.drop i).dropWhile isPySpace = B.drop (k + i) := by
    rw [hk, List.drop_drop, Nat.add_comm]
  rw [hkj]
  have hne2 : B.drop (k + i) ≠ [] := hkj ▸ hne
  have h3 := litHere_append_noCross (n := wAdjust) (K := ['\n']) (by decide) hne2 T
  simp only [List.singleton_append] at h3
  rw [h3]
  exact containsSub_false_drop hB (k + i)

/-- The script matcher fails at every position of a region free of its
first literal, when the matcher also fails at the whitespace drop of
the rest of the content. -/
theorem dmScript_skip {B : List Char} (hB : containsSub wAdjust B = false)
    (T : List Char) (ht : litHere wAdjust (('\n' :: T).dropWhile isPySpace) = false) :
    ∀ i, i < B.length → dmScriptMatch (B.drop i ++ ('\n' :: T)) = none := by
  intro i hi
  cases hd : (B.drop i).dropWhile isPySpace with
  | nil =>
    apply dmScriptMatch_none
    rw [dropWhile_nil_append hd]
    exact ht
  | cons d ds => exact dmScript_skip_core hB hi T (by rw [hd]; simp)

/-- The script matcher fails at every position of a region free of its
first literal and free of all-whitespace suffixes. -/
theorem dmScript_skip_front {B : List Char} (hB : containsSub wAdjust B = false)
    (hnw : noAllWsDrop B = true) (T : List Char) :
    ∀ i, i < B.length → dmScriptMatch (B.drop i ++ ('\n' :: T)) = none := by
  intro i hi
  exact dmScript_skip_core hB hi T (noAllWsDrop_spec hnw i hi)

/-- The wrap matcher at the comment of the text-size snippet. -/
theorem dmWrapMatch_at :
    ∀ X, dmWrapMatch (tsComment ++ (tsHd3 ++ (tscDiv ++ X)))
      = some (tsComment ++ (tsHd3 ++ wrapInsL), X) := fun _ => rfl

/-- The script matcher reduces to its final step at the group-1 region. -/
theorem dmScriptMatch_g1 :
    ∀ Z, dmScriptMatch (g1L ++ Z) = dmScriptFinish g1L Z := fun _ => rfl

/-- The final step of the script matcher at a newline, an
all-whitespace run and the lucide tag. -/
theorem dmScriptFinish_at {w : List Char} (hw : w.all isPySpace = true)
    (g s : List Char) :
    dmScriptFinish g ('\n' :: (w ++ (lucideTag ++ s)))
      = some (g ++ (nl2L ++ (dmSnippetL ++ (nl2L ++ lucideTag))), s) := by
  have h1 : ('\n' :: (w ++ (lucideTag ++ s))).dropWhile isPySpace = lucideTag ++ s := by
    rw [show ('\n' :: (w ++ (lucideTag ++ s))).dropWhile isPySpace
          = (w ++ (lucideTag ++ s)).dropWhile isPySpace from rfl,
        dropWhile_append_all hw]
    rfl
  simp [dmScriptFinish, h1, matchLit_self_append]

/-- The button matcher at the wrapper div followed by whitespace and
the text-size-control div. -/
theorem dmBtnMatch_at {w : List Char} (hw : w.all isPySpace = true) (X : List Char) :
    dmBtnMatch (scDiv ++ (w ++ (tscDiv ++ X))) = some (scDiv ++ (w ++ btnInsL), X) := by
  have hdrop : (w ++ (tscDiv ++ X)).dropWhile isPySpace = tscDiv ++ X := by
    rw [dropWhile_append_all hw]; rfl
  have htake : (w ++ (tscDiv ++ X)).takeWhile isPySpace = w := by
    rw [takeWhile_append_all hw]
    simp [show (tscDiv ++ X).takeWhile isPySpace = [] from rfl]
  simp [dmBtnMatch, matchLit_self_append, hdrop, htake]

/-- Componentwise decomposition of the text-size snippet at its comment
and text-size-control div. -/
theorem tsSnippet_split1 :
    tsSnippetL = tsHd3 ++ (tsComment ++ (tsHd3 ++ (tscDiv ++ tsAfterDivL))) :=
  eq_of_beq (by decide)

/-- Componentwise decomposition of the tail of the text-size snippet at
the group-1 region. -/
theorem tsAfterDiv_split : tsAfterDivL = tsMid2L ++ (g1L ++ ['\n']) :=
  eq_of_beq (by decide)

/-- The wrapped snippet splits before the group-1 region. -/
theorem tsWrapped_split : tsWrappedL = tsFrontL ++ (g1L ++ ['\n']) := by
  rw [tsWrappedL, tsFrontL, tsAfterDiv_split]
  simp [List.append_assoc]

/-- The wrap substitution on the text-size snippet followed by anything
inserts the wrapper and button inside the snippet and leaves the rest
alone. -/
theorem subOnce_wrap_ts :
    ∀ Z, subOnceL dmWrapMatch (tsSnippetL ++ Z) = tsWrappedL ++ Z := by
  intro Z
  rw [tsSnippet_split1, List.append_assoc]
  rw [subOnceL_split dmWrapMatch tsHd3 _ ?skip3]
  case skip3 =>
    intro i hi
    rw [show tsHd3.length = 3 from rfl] at hi
    interval_cases i <;> rfl
  have hassoc : (tsComment ++ (tsHd3 ++ (tscDiv ++ tsAfterDivL))) ++ Z
      = tsComment ++ (tsHd3 ++ (tscDiv ++ (tsAfterDivL ++ Z))) := by
    simp [List.append_assoc]
  rw [hassoc, subOnceL_some (dmWrapMatch_at (tsAfterDivL ++ Z)) rfl]
  simp [tsWrappedL, List.append_assoc]

/-- The script substitution on the wrapped snippet, an all-whitespace
run, the lucide tag and anything: the whitespace before the lucide tag
is replaced by the two newlines, the dark-mode snippet and two
newlines, and the rest is left alone. -/
theorem subOnce_script_wrapped {w : List Char} (hw : w.all isPySpace = true)
    (s : List Char) :
    subOnceL dmScriptMatch (tsWrappedL ++ (w ++ (lucideTag ++ s))) = dmPatchedL ++ s := by
  have hsplit : tsWrappedL ++ (w ++ (lucideTag ++ s))
      = tsFrontL ++ (g1L ++ ('\n' :: (w ++ (lucideTag ++ s)))) := by
    rw [tsWrapped_split]
    simp [List.append_assoc]
  rw [hsplit]
  rw [subOnceL_split dmScriptMatch tsFrontL _ ?skip]
  case skip =>
    intro i hi
    rw [show g1L ++ ('\n' :: (w ++ (lucideTag ++ s)))
          = '\n' :: (g1L.drop 1 ++ ('\n' :: (w ++ (lucideTag ++ s)))) from rfl]
    exact dmScript_skip_front (by decide) (by decide) _ i hi
  have hm : dmScriptMatch (g1L ++ ('\n' :: (w ++ (lucideTag ++ s))))
      = some (g1L ++ (nl2L ++ (dmSnippetL ++ (nl2L ++ lucideTag))), s) := by
    rw [dmScriptMatch_g1]
    exact dmScriptFinish_at hw g1L s
  rw [subOnceL_some hm rfl]
  simp [dmPatchedL, tsFrontL, List.append_assoc]

/-- With no match anywhere, the global substitution changes nothing. -/
theorem subAllF_id {m : List Char → Option (List Char × List Char)} :
    ∀ (f : Nat) (l : List Char), hasMatchL m l = false → subAllF m f l = l := by
  intro f
  induction f with
  | zero => intro l _; rfl
  | succ g ih =>
    intro l h
    cases l with
    | nil => rfl
    | cons c cs =>
      simp only [hasMatchL, Bool.or_eq_false_iff] at h
      have hm : m (c :: cs) = none := by
        cases hm : m (c :: cs) with
        | none => rfl
        | some v => rw [hm] at h; simp at h
      simp [subAllF, hm, ih cs h.2]

/-- With no match anywhere, the scan finds zero matches. -/
theorem numMatchesF_zero {m : List Char → Option (List Char × List Char)} :
    ∀ (f : Nat) (l : List Char), hasMatchL m l = false → numMatchesF m f l = 0 := by
  intro f
  induction f with
  | zero => intro l _; rfl
  | succ g ih =>
    intro l h
    cases l with
    | nil => rfl
    | cons c cs =>
      simp only [hasMatchL, Bool.or_eq_false_iff] at h
      have hm : m (c :: cs) = none := by
        cases hm : m (c :: cs) with
        | none => rfl
        | some v => rw [hm] at h; simp at h
      simp [numMatchesF, hm, ih cs h.2]

/-- Decomposition of a successful anchor match: the replacement is the
snippet followed by the matched text, and the input is the matched text
followed by the rest. -/
theorem tsSubMatch_shape {l rep r : List Char} (h : tsSubMatch l = some (rep, r)) :
    ∃ w1 w2, w1.all isPySpace = true ∧ w2.all isPySpace = true ∧
      rep = tsSnippetL ++ (w1 ++ (lucideTag ++ (w2 ++ bodyClose))) ∧
      l = w1 ++ (lucideTag ++ (w2 ++ (bodyClose ++ r))) := by
  cases h1 : matchLit lucideTag (l.dropWhile isPySpace) with
  | none =>
    rw [tsSubMatch_none (by simp [litHere, h1])] at h
    exact absurd h (by simp)
  | some r2 =>
    cases h2 : matchLit bodyClose (r2.dropWhile isPySpace) with
    | none =>
      have hnone : tsSubMatch l = none := by
        simp [tsSubMatch, tsAnchorMatch, h1, h2]
      rw [hnone] at h
      exact absurd h (by simp)
    | some r4 =>
      have hval : tsSubMatch l = some (tsSnippetL ++
          (l.takeWhile isPySpace ++ (lucideTag ++ (r2.takeWhile isPySpace ++ bodyClose))),
          r4) := by
        simp [tsSubMatch, tsAnchorMatch, h1, h2]
      rw [hval] at h
      simp only [Option.some.injEq, Prod.mk.injEq] at h
      obtain ⟨hrep, hr⟩ := h
      refine ⟨l.takeWhile isPySpace, r2.takeWhile isPySpace,
        all_takeWhile l, all_takeWhile r2, hrep.symm, ?_⟩
      have hl2 : l = l.takeWhile isPySpace ++ (lucideTag ++ r2) := by
        conv_lhs => rw [← List.takeWhile_append_dropWhile isPySpace l]
        rw [matchLit_eq_append h1]
      have hr2 : r2 = r2.takeWhile isPySpace ++ (bodyClose ++ r) := by
        conv_lhs => rw [← List.takeWhile_append_dropWhile isPySpace r2]
        rw [matchLit_eq_append h2, hr]
      conv_lhs => rw [hl2, hr2]

/-- A successful anchor match consumes at least its literal fragments. -/
theorem tsSubMatch_rest_lt {l rep r : List Char} (h : tsSubMatch l = some (rep, r)) :
    r.length < l.length := by
  obtain ⟨w1, w2, _, _, _, hl⟩ := tsSubMatch_shape h
  rw [hl]
  simp [List.length_append, show lucideTag.length = 38 from rfl,
    show bodyClose.length = 7 from rfl]
  omega

/-- The already-patched marker occurs exactly once in the text-size
snippet (inside its text-size-control div). -/
theorem countOcc_tsMarker_snippet : countOcc tsMarker tsSnippetL = 1 := by
  rw [tsSnippet_split1]
  rw [countOcc_append_ws (by decide) (by decide)]
  rw [countOcc_append_cleanBlock (by decide) tsComment (by decide)]
  rw [countOcc_append_ws (by decide) (by decide)]
  rw [countOcc_append_cleanBlock (by decide) tscDiv (by decide)]
  rw [countOcc_eq_zero (by decide : containsSub tsMarker tsAfterDivL = false)]
  decide

/-- The anchor comment occurs exactly once in the text-size snippet. -/
theorem countOcc_tsComment_snippet : countOcc tsComment tsSnippetL = 1 := by
  rw [tsSnippet_split1]
  rw [countOcc_append_ws (by decide) (by decide)]
  rw [countOcc_append_cleanBlock (by decide) tsComment (by decide)]
  rw [countOcc_append_ws (by decide) (by decide)]
  rw [countOcc_append_cleanBlock (by decide) tscDiv (by decide)]
  rw [countOcc_eq_zero (by decide : containsSub tsComment tsAfterDivL = false)]
  decide

/-- Any sufficiently fuelled anchor substitution on content with a
match leaves the already-patched marker in the result. -/
theorem subAllF_marker : ∀ (f : Nat) {l : List Char}, l.length ≤ f →
    hasMatchL tsSubMatch l = true →
    containsSub tsMarker (subAllF tsSubMatch f l) = true := by
  intro f
  induction f with
  | zero =>
    intro l hlen hmat
    cases l with
    | nil => simp [hasMatchL] at hmat
    | cons c cs => simp at hlen
  | succ g ih =>
    intro l hlen hmat
    cases l with
    | nil => simp [hasMatchL] at hmat
    | cons c cs =>
      cases hm : tsSubMatch (c :: cs) with
      | some v =>
        obtain ⟨rep, r⟩ := v
        have hrepc : containsSub tsMarker rep = true := by
          obtain ⟨w1, w2, _, _, hrep, _⟩ := tsSubMatch_shape hm
          rw [hrep]
          exact containsSub_append_left (by decide) _
        simp only [subAllF, hm]
        exact containsSub_append_left hrepc _
      | none =>
        have hmat' : hasMatchL tsSubMatch cs = true := by
          simpa [hasMatchL, hm] using hmat
        have hlen' : cs.length ≤ g := by simp at hlen; omega
        simp [subAllF, hm, containsSub, ih hlen' hmat']

/-- Either the anchor substitution changes nothing, or its result opens
with an untouched prefix of the input followed by a newline (the first
character of the inserted snippet). -/
theorem subAllF_nl : ∀ (f : Nat) (l : List Char),
    subAllF tsSubMatch f l = l ∨
      ∃ p q z, l = p ++ q ∧ subAllF tsSubMatch f l = p ++ '\n' :: z := by
  intro f
  induction f with
  | zero => intro l; left; rfl
  | succ g ih =>
    intro l
    cases l with
    | nil => left; rfl
    | cons c cs =>
      cases hm : tsSubMatch (c :: cs) with
      | none =>
        rcases ih cs with h | ⟨p, q, z, hq, hz⟩
        · left; simp [subAllF, hm, h]
        · right
          exact ⟨c :: p, q, z, by simp [hq], by simp [subAllF, hm, hz]⟩
      | some v =>
        obtain ⟨rep, r⟩ := v
        obtain ⟨w1, w2, _, _, hrep, _⟩ := tsSubMatch_shape hm
        right
        refine ⟨[], c :: cs,
          (tsSnippetL.tail ++ (w1 ++ (lucideTag ++ (w2 ++ bodyClose)))) ++ subAllF tsSubMatch g r,
          by simp, ?_⟩
        simp only [subAllF, hm]
        rw [hrep, show tsSnippetL = '\n' :: tsSnippetL.tail from rfl]
        simp

/-- Occurrence count of the already-patched marker after the anchor
substitution: one per match, provided the marker was absent. -/
theorem countOcc_subAllF : ∀ (f : Nat) {l : List Char}, l.length ≤ f →
    countOcc tsMarker l = 0 →
    countOcc tsMarker (subAllF tsSubMatch f l) = numMatchesF tsSubMatch f l := by
  intro f
  induction f with
  | zero =>
    intro l hlen h0
    cases l with
    | nil => simp [subAllF, numMatchesF, h0]
    | cons c cs => simp at hlen
  | succ g ih =>
    intro l hlen h0
    cases l with
    | nil => simp [subAllF, numMatchesF, h0]
    | cons c cs =>
      cases hm : tsSubMatch (c :: cs) with
      | some v =>
        obtain ⟨rep, r⟩ := v
        obtain ⟨w1, w2, hw1, hw2, hrep, hl⟩ := tsSubMatch_shape hm
        have hrlt : r.length < (c :: cs).length := tsSubMatch_rest_lt hm
        have hrlen : r.length ≤ g := by
          have ha : cs.length + 1 ≤ g + 1 := by simpa using hlen
          have hb : r.length < cs.length + 1 := by simpa using hrlt
          omega
        have hchain : ∀ X, countOcc tsMarker
            (w1 ++ (lucideTag ++ (w2 ++ (bodyClose ++ X)))) = countOcc tsMarker X := by
          intro X
          rw [countOcc_append_ws (by decide) hw1,
            countOcc_append_cleanBlock (by decide) lucideTag (by decide),
            countOcc_append_ws (by decide) hw2,
            countOcc_append_cleanBlock (by decide) bodyClose (by decide)]
          have hz1 : countOcc tsMarker lucideTag = 0 := by decide
          have hz2 : countOcc tsMarker bodyClose = 0 := by decide
          omega
        have hr0 : countOcc tsMarker r = 0 := by
          rw [hl, hchain r] at h0
          exact h0
        simp only [subAllF, numMatchesF, hm]
        rw [hrep, List.append_assoc,
          countOcc_append_cleanBlock (by decide) tsSnippetL (by decide),
          countOcc_tsMarker_snippet]
        have hassoc : (w1 ++ (lucideTag ++ (w2 ++ bodyClose))) ++ subAllF tsSubMatch g r
            = w1 ++ (lucideTag ++ (w2 ++ (bodyClose ++ subAllF tsSubMatch g r))) := by
          simp [List.append_assoc]
        rw [hassoc]
        rw [hchain]
        rw [ih hrlen hr0]
      | none =>
        have hhead : litHere tsMarker (c :: subAllF tsSubMatch g cs) = false := by
          rcases subAllF_nl g cs with he | ⟨p, q, z, hq, hz⟩
          · rw [he]
            cases hlit : litHere tsMarker (c :: cs) with
            | false => rfl
            | true => simp [countOcc, hlit] at h0
          · rw [hz]
            have hshape : c :: (p ++ '\n' :: z) = (c :: p) ++ (['\n'] ++ z) := by simp
            rw [hshape, litHere_append_noCross (by decide) (by simp) z]
            cases hcp : litHere tsMarker (c :: p) with
            | false => rfl
            | true =>
              have hmono := litHere_mono hcp q
              rw [show (c :: p) ++ q = c :: (p ++ q) from by simp, ← hq] at hmono
              simp [countOcc, hmono] at h0
        have h0' : countOcc tsMarker cs = 0 := by
          simp only [countOcc] at h0
          omega
        have hlen' : cs.length ≤ g := by
          have ha : cs.length + 1 ≤ g + 1 := by simpa using hlen
          omega
        simp only [subAllF, numMatchesF, hm, countOcc, hhead]
        simpa using ih hlen' h0'

/-- One step of the global substitution at a match (for matchers that
fail on the empty input). -/
theorem subAllF_match {m : List Char → Option (List Char × List Char)}
    {f : Nat} {l rep r : List Char} (h : m l = some (rep, r)) (hnil : m [] = none) :
    subAllF m (f + 1) l = rep ++ subAllF m f r := by
  cases l with
  | nil => rw [hnil] at h; exact absurd h (by simp)
  | cons c cs => simp [subAllF, h]

/-- Claim C1 counterexample: on content consisting of two adjacent
anchor occurrences and no marker, the Text-Size Patcher's substitution
(which has no count argument) inserts the snippet twice, not once. -/
theorem claim1_counterexample :
    (add_text_size_control cexMultiAnchor).1 = TSOutcome.added ∧
    countOcc tsComment cexMultiAnchor = 0 ∧
    countOcc tsComment (add_text_size_control cexMultiAnchor).2 = 2 := by
  have h1 : containsSub tsMarker cexMultiAnchor = false := by decide
  have h2 : hasMatchL tsSubMatch cexMultiAnchor = true := by decide
  have hbranch : add_text_size_control cexMultiAnchor
      = (TSOutcome.added, subAllF tsSubMatch cexMultiAnchor.length cexMultiAnchor) := by
    simp [add_text_size_control, h1, h2]
  have hm1 : tsSubMatch cexMultiAnchor = some (tsSnippetL ++ anchA1, anchA2) := rfl
  have hm2 : tsSubMatch anchA2 = some (tsSnippetL ++ anchA2, ([] : List Char)) := rfl
  have hres : subAllF tsSubMatch cexMultiAnchor.length cexMultiAnchor
      = tsSnippetL ++ (anchA1 ++ (tsSnippetL ++ anchA2)) := by
    rw [show cexMultiAnchor.length = 91 + 1 from rfl]
    rw [subAllF_match hm1 rfl]
    rw [show (91 : Nat) = 90 + 1 from rfl]
    rw [subAllF_match hm2 rfl]
    rw [show subAllF tsSubMatch 90 ([] : List Char) = [] from rfl]
    simp [List.append_assoc]
  refine ⟨by rw [hbranch], by decide, ?_⟩
  rw [hbranch]
  simp only []
  rw [hres]
  rw [countOcc_append_cleanBlock (by decide) tsSnippetL (by decide),
    countOcc_tsComment_snippet,
    countOcc_append_cleanBlock (by decide) anchA1 (by decide),
    countOcc_append_cleanBlock (by decide) tsSnippetL (by decide),
    countOcc_tsComment_snippet]
  have hz1 : countOcc tsComment anchA1 = 0 := by decide
  have hz2 : countOcc tsComment anchA2 = 0 := by decide
  omega

/-- Claim C1 (amended): the substitution is applied at every
non-overlapping anchor match, so content free of the marker gains
exactly one marker occurrence per anchor match. -/
theorem claim1_subst_every_anchor (content : List Char)
    (h : containsSub tsMarker content = false) :
    countOcc tsMarker (add_text_size_control content).2 = tsAnchorCount content := by
  by_cases h2 : hasMatchL tsSubMatch content = true
  · have hbranch : add_text_size_control content
        = (TSOutcome.added, subAllF tsSubMatch content.length content) := by
      simp [add_text_size_control, h, h2]
    rw [hbranch]
    exact countOcc_subAllF content.length le_rfl (countOcc_eq_zero h)
  · have h2' : hasMatchL tsSubMatch content = false := by simpa using h2
    have hbranch : add_text_size_control content = (TSOutcome.noAnchor, content) := by
      simp [add_text_size_control, h, h2']
    rw [hbranch]
    rw [countOcc_eq_zero h, tsAnchorCount, numMatchesF_zero _ _ h2']

/-- Claim C1 witness: a page with a single anchor occurrence. -/
theorem claim1_witness :
    containsSub tsMarker witnessPage = false ∧
    countOcc tsMarker (add_text_size_control witnessPage).2 = tsAnchorCount witnessPage :=
  ⟨by decide, claim1_subst_every_anchor witnessPage (by decide)⟩

/-- Claim C2 counterexample: on content with neither marker nor anchor,
the second run of the Text-Size Patcher does not take the
already-patched branch (it reports no insertion point again). -/
theorem claim2_counterexample :
    (add_text_size_control ((add_text_size_control (("x").toList)).2)).1
      ≠ TSOutcome.alreadyHas := by decide

/-- Claim C2 (amended): the Text-Size Patcher is idempotent on content,
and the second run's branch is determined by the first run's: after a
modifying run (or an already-patched skip) the second run takes the
already-patched branch, after an anchorless skip it reports no
insertion point again. -/
theorem claim2_idempotent_with_outcomes (c : List Char) :
    add_text_size_control ((add_text_size_control c).2)
      = (tsSecondOutcome (add_text_size_control c).1, (add_text_size_control c).2) := by
  by_cases h1 : containsSub tsMarker c = true
  · have hfst : add_text_size_control c = (TSOutcome.alreadyHas, c) := by
      simp [add_text_size_control, h1]
    rw [hfst]
    simp [add_text_size_control, h1, tsSecondOutcome]
  · have h1' : containsSub tsMarker c = false := by simpa using h1
    by_cases h2 : hasMatchL tsSubMatch c = true
    · have hfst : add_text_size_control c
          = (TSOutcome.added, subAllF tsSubMatch c.length c) := by
        simp [add_text_size_control, h1', h2]
      rw [hfst]
      have hmark : containsSub tsMarker (subAllF tsSubMatch c.length c) = true :=
        subAllF_marker c.length le_rfl h2
      simp [add_text_size_control, hmark, tsSecondOutcome]
    · have h2' : hasMatchL tsSubMatch c = false := by simpa using h2
      have hfst : add_text_size_control c = (TSOutcome.noAnchor, c) := by
        simp [add_text_size_control, h1', h2']
      rw [hfst]
      simp [add_text_size_control, h1', h2', tsSecondOutcome]

/-- Claim C8: the injected size-adjustment logic satisfies the
three-level clamp: increase from normal gives large and is then a
no-op, decrease from large gives normal and then small, decrease from
small and increase from large are no-ops, and reset always gives
normal. -/
theorem claim8_size_progression :
    adjustTextSize TextSize.normal SizeAction.increase = TextSize.large ∧
    adjustTextSize (adjustTextSize TextSize.normal SizeAction.increase)
      SizeAction.increase = TextSize.large ∧
    adjustTextSize TextSize.large SizeAction.decrease = TextSize.normal ∧
    adjustTextSize (adjustTextSize TextSize.large SizeAction.decrease)
      SizeAction.decrease = TextSize.small ∧
    adjustTextSize TextSize.small SizeAction.decrease = TextSize.small ∧
    adjustTextSize TextSize.large SizeAction.increase = TextSize.large ∧
    (∀ s, adjustTextSize s SizeAction.reset = TextSize.normal) :=
  ⟨rfl, rfl, rfl, rfl, rfl, rfl, fun s => by cases s <;> rfl⟩

/-- Claim C9: a file named text-size-control.html is excluded from the
processed file list of both patchers, whatever its directory and the
rest of the scan result. -/
theorem claim9_exclusion (files : List HtmlFile) (f : HtmlFile)
    (h : f.name = excludedName) :
    f ∉ selectHtmlFilesTS files ∧ f ∉ selectHtmlFilesDM files := by
  constructor <;>
  · intro hmem
    have := (List.mem_filter.mp hmem).2
    simp [h] at this

/-- Claim C9 witness: a concrete scan result containing the excluded
file in a subdirectory. -/
theorem claim9_witness :
    (⟨["docs", "sub"], "text-size-control.html"⟩ : HtmlFile).name = excludedName ∧
    (⟨["docs", "sub"], "text-size-control.html"⟩ : HtmlFile) ∉ selectHtmlFilesTS witnessFiles ∧
    (⟨["docs", "sub"], "text-size-control.html"⟩ : HtmlFile) ∉ selectHtmlFilesDM witnessFiles :=
  ⟨by decide, (claim9_exclusion witnessFiles _ (by decide)).1,
    (claim9_exclusion witnessFiles _ (by decide)).2⟩

/-- Claim C10: on state-D content whose wrapper div is not followed (up
to whitespace) by the text-size-control div while the wrapper-close
marker is present, add_dark_mode_toggle writes back content identical
to what it read yet returns the added-theme-toggle-button outcome,
whose flag counts the file as updated. -/
theorem claim10_phantom_update :
    add_dark_mode_toggle cexPhantom = (DMOutcome.addedButton, cexPhantom) ∧
    dmReturnFlag (add_dark_mode_toggle cexPhantom).1 = true := by
  have h : add_dark_mode_toggle cexPhantom = (DMOutcome.addedButton, cexPhantom) := by decide
  exact ⟨h, by rw [h]; rfl⟩

/-- Claim C4 counterexample: content lacking the text-size-control
prerequisite marker but containing the toggleTheme marker is skipped
via the already-toggled branch, not the missing-prerequisite one. -/
theorem claim4_counterexample :
    (add_dark_mode_toggle (("toggleTheme").toList)).1 ≠ DMOutcome.missingPrereq := by
  decide

/-- Claim C4 (amended): precondition-not-met conditions are
non-exceptional skips that leave content unchanged: content lacking
both the toggleTheme marker and the text-size-control marker is skipped
by the Dark-Mode Patcher with the missing-prerequisite outcome, and
content lacking both the already-patched marker and the anchor is
skipped by the Text-Size Patcher with the no-insertion-point outcome. -/
theorem claim4_skip_no_write (c d : List Char)
    (h1 : containsSub toggleMarker c = false)
    (h2 : containsSub tscDiv c = false)
    (h3 : containsSub tsMarker d = false)
    (h4 : hasMatchL tsSubMatch d = false) :
    add_dark_mode_toggle c = (DMOutcome.missingPrereq, c) ∧
    add_text_size_control d = (TSOutcome.noAnchor, d) := by
  constructor
  · simp [add_dark_mode_toggle, h1, h2]
  · simp [add_text_size_control, h3, h4]

/-- Claim C4 witness: two small pages without any marker. -/
theorem claim4_witness :
    containsSub toggleMarker (("<p>a</p>").toList) = false ∧
    containsSub tscDiv (("<p>a</p>").toList) = false ∧
    containsSub tsMarker (("<p>b</p>").toList) = false ∧
    hasMatchL tsSubMatch (("<p>b</p>").toList) = false ∧
    (add_dark_mode_toggle (("<p>a</p>").toList)
        = (DMOutcome.missingPrereq, ("<p>a</p>").toList) ∧
      add_text_size_control (("<p>b</p>").toList)
        = (TSOutcome.noAnchor, ("<p>b</p>").toList)) :=
  ⟨by decide, by decide, by decide, by decide,
    claim4_skip_no_write _ _ (by decide) (by decide) (by decide) (by decide)⟩

/-- Claim C7 counterexample: content containing the prerequisite
marker, the wrapper marker and the button marker but not the
toggleTheme marker reaches the already-complete branch, so that branch
is reachable. -/
theorem claim7_counterexample :
    add_dark_mode_toggle cexBtnNoToggle = (DMOutcome.alreadyComplete, cexBtnNoToggle) := by
  decide

/-- Claim C7 (amended): the already-complete branch is reached exactly
on content that contains the text-size-control marker, the wrapper
marker and the theme-toggle button marker while lacking the toggleTheme
marker; it is therefore not reachable from content whose button marker
only ever occurs together with its onclick toggleTheme attribute, but
it is reachable in general. -/
theorem claim7_already_complete_iff (c : List Char) :
    add_dark_mode_toggle c = (DMOutcome.alreadyComplete, c) ↔
      (containsSub toggleMarker c = false ∧ containsSub tscDiv c = true ∧
        containsSub scDiv c = true ∧ containsSub themeBtn c = true) := by
  constructor
  · intro h
    by_cases h1 : containsSub toggleMarker c = true
    · rw [show add_dark_mode_toggle c = (DMOutcome.alreadyToggled, c) by
        simp [add_dark_mode_toggle, h1]] at h
      exact absurd (congrArg Prod.fst h) (by simp)
    · have h1' : containsSub toggleMarker c = false := by simpa using h1
      by_cases h2 : containsSub tscDiv c = true
      · by_cases h3 : containsSub scDiv c = true
        · by_cases h4 : containsSub themeBtn c = true
          · exact ⟨h1', h2, h3, h4⟩
          · have h4' : containsSub themeBtn c = false := by simpa using h4
            rw [show add_dark_mode_toggle c = (DMOutcome.addedButton,
                if containsSub scClose (subOnceL dmBtnMatch c) = false then
                  subOnceL dmScriptMatch (subOnceL dmBtnMatch c)
                else subOnceL dmBtnMatch c) by
              simp [add_dark_mode_toggle, h1', h2, h3, h4']] at h
            exact absurd (congrArg Prod.fst h) (by simp)
        · have h3' : containsSub scDiv c = false := by simpa using h3
          rw [show add_dark_mode_toggle c = (DMOutcome.addedToggle,
              subOnceL dmScriptMatch (subOnceL dmWrapMatch c)) by
            simp [add_dark_mode_toggle, h1', h2, h3']] at h
          exact absurd (congrArg Prod.fst h) (by simp)
      · have h2' : containsSub tscDiv c = false := by simpa using h2
        rw [show add_dark_mode_toggle c = (DMOutcome.missingPrereq, c) by
          simp [add_dark_mode_toggle, h1', h2']] at h
        exact absurd (congrArg Prod.fst h) (by simp)
  · intro ⟨h1, h2, h3, h4⟩
    simp [add_dark_mode_toggle, h1, h2, h3, h4]

/-- Every replacement of the wrap matcher contains the toggleTheme
marker (inside the inserted button's onclick attribute). -/
theorem dmWrapMatch_key : ∀ (l rep r : List Char),
    dmWrapMatch l = some (rep, r) → containsSub toggleMarker rep = true := by
  intro l rep r h
  cases h1 : matchLit tsComment l with
  | none => rw [dmWrapMatch_none (by simp [litHere, h1])] at h; exact absurd h (by simp)
  | some r1 =>
    cases h2 : matchLit tscDiv (r1.dropWhile isPySpace) with
    | none =>
      have hnone : dmWrapMatch l = none := by simp [dmWrapMatch, h1, h2]
      rw [hnone] at h
      exact absurd h (by simp)
    | some r2 =>
      have hval : dmWrapMatch l
          = some (tsComment ++ (r1.takeWhile isPySpace ++ wrapInsL), r2) := by
        simp [dmWrapMatch, h1, h2]
      rw [hval] at h
      simp only [Option.some.injEq, Prod.mk.injEq] at h
      rw [← h.1]
      exact containsSub_append_right
        (containsSub_append_right (by decide) _) _

/-- Every replacement of the script matcher contains the toggleTheme
marker (inside the inserted dark-mode script block). -/
theorem dmScriptMatch_key : ∀ (l rep r : List Char),
    dmScriptMatch l = some (rep, r) → containsSub toggleMarker rep = true := by
  intro l rep r h
  cases h1 : matchLit wAdjust (l.dropWhile isPySpace) with
  | none => rw [dmScriptMatch_none (by simp [litHere, h1])] at h; exact absurd h (by simp)
  | some r1 =>
    cases h2 : matchLit closeParens (r1.dropWhile isPySpace) with
    | none =>
      have hnone : dmScriptMatch l = none := by simp [dmScriptMatch, h1, h2]
      rw [hnone] at h
      exact absurd h (by simp)
    | some r2 =>
      cases h3 : matchLit scriptClose (r2.dropWhile isPySpace) with
      | none =>
        have hnone : dmScriptMatch l = none := by simp [dmScriptMatch, h1, h2, h3]
        rw [hnone] at h
        exact absurd h (by simp)
      | some r3 =>
        have hval : dmScriptMatch l = dmScriptFinish
            (l.takeWhile isPySpace ++ (wAdjust ++ (r1.takeWhile isPySpace ++
              (closeParens ++ (r2.takeWhile isPySpace ++ scriptClose))))) r3 := by
          simp [dmScriptMatch, h1, h2, h3]
        rw [hval] at h
        cases h4 : matchLit lucideTag (r3.dropWhile isPySpace) with
        | none =>
          rw [show dmScriptFinish _ r3 = none by simp [dmScriptFinish, h4]] at h
          exact absurd h (by simp)
        | some r4 =>
          rw [show ∀ g, dmScriptFinish g r3
              = some (g ++ (nl2L ++ (dmSnippetL ++ (nl2L ++ lucideTag))), r4) from
            fun g => by simp [dmScriptFinish, h4]] at h
          simp only [Option.some.injEq, Prod.mk.injEq] at h
          rw [← h.1]
          exact containsSub_append_right
            (containsSub_append_right (containsSub_append_left (by decide) _) _) _

/-- Every replacement of the button matcher contains the toggleTheme
marker (inside the inserted button's onclick attribute). -/
theorem dmBtnMatch_key : ∀ (l rep r : List Char),
    dmBtnMatch l = some (rep, r) → containsSub toggleMarker rep = true := by
  intro l rep r h
  cases h1 : matchLit scDiv l with
  | none => rw [dmBtnMatch_none (by simp [litHere, h1])] at h; exact absurd h (by simp)
  | some r1 =>
    cases h2 : matchLit tscDiv (r1.dropWhile isPySpace) with
    | none =>
      have hnone : dmBtnMatch l = none := by simp [dmBtnMatch, h1, h2]
      rw [hnone] at h
      exact absurd h (by simp)
    | some r2 =>
      have hval : dmBtnMatch l
          = some (scDiv ++ (r1.takeWhile isPySpace ++ btnInsL), r2) := by
        simp [dmBtnMatch, h1, h2]
      rw [hval] at h
      simp only [Option.some.injEq, Prod.mk.injEq] at h
      rw [← h.1]
      exact containsSub_append_right
        (containsSub_append_right (by decide) _) _

/-- Rerunning the Dark-Mode Patcher on a fixed point of its content
transformation returns the same content. -/
theorem dm_idem_of_fix {c : List Char} (hr : (add_dark_mode_toggle c).2 = c) :
    (add_dark_mode_toggle ((add_dark_mode_toggle c).2)).2 = (add_dark_mode_toggle c).2 := by
  rw [hr]
  exact hr

/-- Rerunning the Dark-Mode Patcher on content containing the
toggleTheme marker returns it unchanged. -/
theorem dm_idem_of_toggle {c : List Char}
    (h : containsSub toggleMarker ((add_dark_mode_toggle c).2) = true) :
    (add_dark_mode_toggle ((add_dark_mode_toggle c).2)).2 = (add_dark_mode_toggle c).2 := by
  generalize hx : (add_dark_mode_toggle c).2 = x at h ⊢
  simp [add_dark_mode_toggle, h]

/-- Claim C3: the Dark-Mode Patcher is idempotent on file content:
applying the content transformation twice yields the same content as
applying it once. -/
theorem claim3_dark_mode_idempotent (c : List Char) :
    (add_dark_mode_toggle ((add_dark_mode_toggle c).2)).2 = (add_dark_mode_toggle c).2 := by
  by_cases h1 : containsSub toggleMarker c = true
  · exact dm_idem_of_fix (by simp [add_dark_mode_toggle, h1])
  · have h1' : containsSub toggleMarker c = false := by simpa using h1
    by_cases h2 : containsSub tscDiv c = true
    · by_cases h3 : containsSub scDiv c = true
      · by_cases h4 : containsSub themeBtn c = true
        · exact dm_idem_of_fix (by simp [add_dark_mode_toggle, h1', h2, h3, h4])
        · have h4' : containsSub themeBtn c = false := by simpa using h4
          by_cases h5 : containsSub scClose (subOnceL dmBtnMatch c) = false
          · have hf : (add_dark_mode_toggle c).2
                = subOnceL dmScriptMatch (subOnceL dmBtnMatch c) := by
              simp [add_dark_mode_toggle, h1', h2, h3, h4', h5]
            rcases subOnceL_key dmBtnMatch_key c with he | hc
            · rcases subOnceL_key dmScriptMatch_key (subOnceL dmBtnMatch c) with he2 | hc2
              · exact dm_idem_of_fix (by rw [hf, he2, he])
              · exact dm_idem_of_toggle (by rw [hf]; exact hc2)
            · rcases subOnceL_key dmScriptMatch_key (subOnceL dmBtnMatch c) with he2 | hc2
              · exact dm_idem_of_toggle (by rw [hf, he2]; exact hc)
              · exact dm_idem_of_toggle (by rw [hf]; exact hc2)
          · have h5' : containsSub scClose (subOnceL dmBtnMatch c) = true := by
              simpa using h5
            have hf : (add_dark_mode_toggle c).2 = subOnceL dmBtnMatch c := by
              simp [add_dark_mode_toggle, h1', h2, h3, h4', h5']
            rcases subOnceL_key dmBtnMatch_key c with he | hc
            · exact dm_idem_of_fix (by rw [hf, he])
            · exact dm_idem_of_toggle (by rw [hf]; exact hc)
      · have h3' : containsSub scDiv c = false := by simpa using h3
        have hf : (add_dark_mode_toggle c).2
            = subOnceL dmScriptMatch (subOnceL dmWrapMatch c) := by
          simp [add_dark_mode_toggle, h1', h2, h3']
        rcases subOnceL_key dmWrapMatch_key c with he | hc
        · rcases subOnceL_key dmScriptMatch_key (subOnceL dmWrapMatch c) with he2 | hc2
          · exact dm_idem_of_fix (by rw [hf, he2, he])
          · exact dm_idem_of_toggle (by rw [hf]; exact hc2)
        · rcases subOnceL_key dmScriptMatch_key (subOnceL dmWrapMatch c) with he2 | hc2
          · exact dm_idem_of_toggle (by rw [hf, he2]; exact hc)
          · exact dm_idem_of_toggle (by rw [hf]; exact hc2)
    · have h2' : containsSub tscDiv c = false := by simpa using h2
      exact dm_idem_of_fix (by simp [add_dark_mode_toggle, h1', h2'])

/-- A needle occurs at the head of itself followed by anything. -/
theorem litHere_self_append (n r : List Char) : litHere n (n ++ r) = true := by
  simp [litHere, matchLit_self_append]

/-- Claim C6 counterexample: state-D content in which the wrapper div
is not followed (up to whitespace) by the text-size-control div gains
no theme-toggle button. -/
theorem claim6_counterexample :
    containsSub tscDiv cexNoBtnGain = true ∧
    containsSub scDiv cexNoBtnGain = true ∧
    containsSub themeBtn cexNoBtnGain = false ∧
    containsSub toggleMarker cexNoBtnGain = false ∧
    countOcc themeBtn ((add_dark_mode_toggle cexNoBtnGain).2) = 0 := by
  decide

/-- The wrapper-and-button insertion ends with the text-size-control
div. -/
theorem wrapIns_split : wrapInsL = wrapFrontL ++ tscDiv := eq_of_beq (by decide)

/-- The core of the text-size snippet is its div followed by its middle
and the group-1 region. -/
theorem tscCore_split : tscCoreL = tscDiv ++ (tsMid2L ++ g1L) := eq_of_beq (by decide)

/-- The text-size snippet is its head, its core and a newline. -/
theorem tsSnippet_head_core : tsSnippetL = tsHeadL ++ (tscCoreL ++ ['\n']) := by
  rw [tsSnippet_split1, tsAfterDiv_split, tscCore_split, tsHeadL]
  simp [List.append_assoc]

/-- The patched block contains the snippet's core contiguously and
unmodified, between the inserted button block and the inserted
dark-mode script block. -/
theorem dmPatched_core : dmPatchedL
    = tsHeadL ++ (wrapFrontL ++ (tscCoreL ++ (nl2L ++ (dmSnippetL ++ (nl2L ++ lucideTag))))) := by
  rw [dmPatchedL, wrapIns_split, tscCore_split, tsHeadL]
  simp [List.append_assoc]

/-- Occurrence counts over the result of the state-C branch decompose
into the counts of its components. -/
theorem countOcc_dmPatched {n : List Char} (hne : n ≠ [])
    (hnc3 : noCross n tsHd3 = true) (hws : headNonWs n = true)
    (hc1 : cleanBlock n tsComment = true) (hc2 : cleanBlock n wrapInsL = true)
    (hcm : cleanBlock n tsMid2L = true) (hm : containsSub n tsMid2L = false)
    (hc3 : cleanBlock n g1L = true) (hc4 : cleanBlock n dmSnippetL = true)
    (hc5 : cleanBlock n lucideTag = true) (p s : List Char) :
    countOcc n (p ++ (dmPatchedL ++ s)) = countOcc n p +
      (countOcc n tsComment + (countOcc n wrapInsL + (countOcc n g1L +
        (countOcc n dmSnippetL + (countOcc n lucideTag + countOcc n s))))) := by
  have hassoc : p ++ (dmPatchedL ++ s) = p ++ (tsHd3 ++ (tsComment ++ (tsHd3 ++
      (wrapInsL ++ (tsMid2L ++ (g1L ++ (nl2L ++ (dmSnippetL ++
        (nl2L ++ (lucideTag ++ s)))))))))) := by
    simp [dmPatchedL, List.append_assoc]
  rw [hassoc,
    countOcc_append_noCross hnc3 hne p _,
    countOcc_append_ws hws (by decide),
    countOcc_append_cleanBlock hne tsComment hc1,
    countOcc_append_ws hws (by decide),
    countOcc_append_cleanBlock hne wrapInsL hc2,
    countOcc_append_cleanBlock hne tsMid2L hcm,
    countOcc_append_cleanBlock hne g1L hc3,
    countOcc_append_ws hws (by decide),
    countOcc_append_cleanBlock hne dmSnippetL hc4,
    countOcc_append_ws hws (by decide),
    countOcc_append_cleanBlock hne lucideTag hc5,
    countOcc_eq_zero hm]
  omega

/-- Claim C5: state-C postcondition.  On content consisting of anything
free of the anchor comment and of the window.adjustTextSize line,
followed by the text-size snippet as produced by the Text-Size Patcher,
whitespace, the lucide tag and anything, with no wrapper marker, no
button marker and no toggleTheme marker anywhere, the Dark-Mode Patcher
takes the wrap branch; the result contains exactly one wrapper marker,
exactly one theme-toggle button marker and exactly one toggle-function
marker, and the snippet's core markup is still present unmodified in
place (conjuncts five and six exhibit the core inside the snippet and
inside the patched block). -/
theorem claim5_state_c (p w s : List Char)
    (hw : w.all isPySpace = true)
    (htog : containsSub toggleMarker (p ++ (tsSnippetL ++ (w ++ (lucideTag ++ s)))) = false)
    (hsc : containsSub scDiv (p ++ (tsSnippetL ++ (w ++ (lucideTag ++ s)))) = false)
    (hbtn : containsSub themeBtn (p ++ (tsSnippetL ++ (w ++ (lucideTag ++ s)))) = false)
    (hcmt : containsSub tsComment p = false)
    (hwadj : containsSub wAdjust p = false) :
    add_dark_mode_toggle (p ++ (tsSnippetL ++ (w ++ (lucideTag ++ s))))
      = (DMOutcome.addedToggle, p ++ (dmPatchedL ++ s))
    ∧ countOcc scDiv (p ++ (dmPatchedL ++ s)) = 1
    ∧ countOcc themeBtn (p ++ (dmPatchedL ++ s)) = 1
    ∧ countOcc funToggle (p ++ (dmPatchedL ++ s)) = 1
    ∧ tsSnippetL = tsHeadL ++ (tscCoreL ++ ['\n'])
    ∧ dmPatchedL = tsHeadL ++ (wrapFrontL ++ (tscCoreL ++
        (nl2L ++ (dmSnippetL ++ (nl2L ++ lucideTag))))) := by
  have h2 : containsSub tscDiv (p ++ (tsSnippetL ++ (w ++ (lucideTag ++ s)))) = true :=
    containsSub_append_right (containsSub_append_left (by decide) _) p
  have hfunp : containsSub funToggle p = false := by
    cases h : containsSub funToggle p with
    | false => rfl
    | true =>
      rw [show funToggle = ("function ").toList ++ (toggleMarker ++ ("()").toList)
        from rfl] at h
      have h1 := containsSub_mid h
      have h2' := containsSub_append_left h1 (tsSnippetL ++ (w ++ (lucideTag ++ s)))
      rw [h2'] at htog
      exact absurd htog (by simp)
  have hfuns : containsSub funToggle s = false := by
    cases h : containsSub funToggle s with
    | false => rfl
    | true =>
      rw [show funToggle = ("function ").toList ++ (toggleMarker ++ ("()").toList)
        from rfl] at h
      have h1 := containsSub_mid h
      have h2' := containsSub_append_right h1 lucideTag
      have h3' := containsSub_append_right h2' w
      have h4' := containsSub_append_right h3' tsSnippetL
      have h5' := containsSub_append_right h4' p
      rw [h5'] at htog
      exact absurd htog (by simp)
  have hv1 : subOnceL dmWrapMatch (p ++ (tsSnippetL ++ (w ++ (lucideTag ++ s))))
      = p ++ (tsWrappedL ++ (w ++ (lucideTag ++ s))) := by
    rw [subOnceL_split dmWrapMatch p _ ?skipA]
    case skipA =>
      intro i hi
      rw [show tsSnippetL ++ (w ++ (lucideTag ++ s))
        = '\n' :: (tsSnippetL.tail ++ (w ++ (lucideTag ++ s))) from rfl]
      exact dmWrap_skip hcmt i hi _
    rw [subOnce_wrap_ts]
  have hv2 : subOnceL dmScriptMatch (p ++ (tsWrappedL ++ (w ++ (lucideTag ++ s))))
      = p ++ (dmPatchedL ++ s) := by
    rw [subOnceL_split dmScriptMatch p _ ?skipB]
    case skipB =>
      intro i hi
      rw [show tsWrappedL ++ (w ++ (lucideTag ++ s))
        = '\n' :: (tsWrappedL.tail ++ (w ++ (lucideTag ++ s))) from rfl]
      exact dmScript_skip hwadj (tsWrappedL.tail ++ (w ++ (lucideTag ++ s))) rfl i hi
    rw [subOnce_script_wrapped hw s]
  refine ⟨?_, ?_, ?_, ?_, tsSnippet_head_core, dmPatched_core⟩
  · simp [add_dark_mode_toggle, htog, h2, hsc, hv1, hv2]
  · rw [countOcc_dmPatched (by decide) (by decide) (by decide) (by decide) (by decide)
      (by decide) (by decide) (by decide) (by decide) (by decide) p s]
    have hz1 : countOcc scDiv p = 0 := countOcc_eq_zero (containsSub_false_left hsc)
    have hz2 : countOcc scDiv s = 0 := by
      have a1 := containsSub_false_right hsc
      have a2 := containsSub_false_right a1
      have a3 := containsSub_false_right a2
      exact countOcc_eq_zero (containsSub_false_right a3)
    have hv3 : countOcc scDiv tsComment = 0 := by decide
    have hv4 : countOcc scDiv wrapInsL = 1 := by decide
    have hv5 : countOcc scDiv g1L = 0 := by decide
    have hv6 : countOcc scDiv dmSnippetL = 0 :=
      countOcc_eq_zero (by decide)
    have hv7 : countOcc scDiv lucideTag = 0 := by decide
    omega
  · rw [countOcc_dmPatched (by decide) (by decide) (by decide) (by decide) (by decide)
      (by decide) (by decide) (by decide) (by decide) (by decide) p s]
    have hz1 : countOcc themeBtn p = 0 := countOcc_eq_zero (containsSub_false_left hbtn)
    have hz2 : countOcc themeBtn s = 0 := by
      have a1 := containsSub_false_right hbtn
      have a2 := containsSub_false_right a1
      have a3 := containsSub_false_right a2
      exact countOcc_eq_zero (containsSub_false_right a3)
    have hv3 : countOcc themeBtn tsComment = 0 := by decide
    have hv4 : countOcc themeBtn wrapInsL = 1 := by decide
    have hv5 : countOcc themeBtn g1L = 0 := by decide
    have hv6 : countOcc themeBtn dmSnippetL = 0 :=
      countOcc_eq_zero (by decide)
    have hv7 : countOcc themeBtn lucideTag = 0 := by decide
    omega
  · rw [countOcc_dmPatched (by decide) (by decide) (by decide) (by decide) (by decide)
      (by decide) (by decide) (by decide) (by decide) (by decide) p s]
    have hz1 : countOcc funToggle p = 0 := countOcc_eq_zero hfunp
    have hz2 : countOcc funToggle s = 0 := countOcc_eq_zero hfuns
    have hv3 : countOcc funToggle tsComment = 0 := by decide
    have hv4 : countOcc funToggle wrapInsL = 0 := by decide
    have hv5 : countOcc funToggle g1L = 0 := by decide
    have hv6 : countOcc funToggle dmSnippetL = 1 := by decide
    have hv7 : countOcc funToggle lucideTag = 0 := by decide
    omega

/-- Claim C5 witness: a concrete page carrying the freshly patched
text-size snippet, whitespace, the lucide tag and a closing tail. -/
theorem claim5_witness :
    (("\n  ").toList.all isPySpace = true ∧
      containsSub toggleMarker
        (witCPre ++ (tsSnippetL ++ (("\n  ").toList ++ (lucideTag ++ witCPost)))) = false ∧
      containsSub scDiv
        (witCPre ++ (tsSnippetL ++ (("\n  ").toList ++ (lucideTag ++ witCPost)))) = false ∧
      containsSub themeBtn
        (witCPre ++ (tsSnippetL ++ (("\n  ").toList ++ (lucideTag ++ witCPost)))) = false ∧
      containsSub tsComment witCPre = false ∧
      containsSub wAdjust witCPre = false) ∧
    (add_dark_mode_toggle
        (witCPre ++ (tsSnippetL ++ (("\n  ").toList ++ (lucideTag ++ witCPost))))
        = (DMOutcome.addedToggle, witCPre ++ (dmPatchedL ++ witCPost))
      ∧ countOcc scDiv (witCPre ++ (dmPatchedL ++ witCPost)) = 1
      ∧ countOcc themeBtn (witCPre ++ (dmPatchedL ++ witCPost)) = 1
      ∧ countOcc funToggle (witCPre ++ (dmPatchedL ++ witCPost)) = 1
      ∧ tsSnippetL = tsHeadL ++ (tscCoreL ++ ['\n'])
      ∧ dmPatchedL = tsHeadL ++ (wrapFrontL ++ (tscCoreL ++
          (nl2L ++ (dmSnippetL ++ (nl2L ++ lucideTag)))))) :=
  ⟨⟨by decide, by decide, by decide, by decide, by decide, by decide⟩,
    claim5_state_c witCPre (("\n  ").toList) witCPost
      (by decide) (by decide) (by decide) (by decide) (by decide) (by decide)⟩

/-- With no match anywhere, the leftmost substitution changes
nothing. -/
theorem subOnceL_id {m : List Char → Option (List Char × List Char)} :
    ∀ l, hasMatchL m l = false → subOnceL m l = l := by
  intro l
  induction l with
  | nil => intro _; rfl
  | cons c cs ih =>
    intro h
    simp only [hasMatchL, Bool.or_eq_false_iff] at h
    have hm : m (c :: cs) = none := by
      cases hm : m (c :: cs) with
      | none => rfl
      | some v => rw [hm] at h; simp at h
    simp [subOnceL, hm, ih h.2]

/-- Leftmost-match decomposition: when the matcher succeeds somewhere,
the input splits into an untouched prefix and a matched rest, and the
substitution result is that prefix followed by the replacement and the
remainder of the match. -/
theorem subOnceL_decomp {m : List Char → Option (List Char × List Char)} :
    ∀ {l : List Char}, hasMatchL m l = true →
      ∃ P rest rep r, l = P ++ rest ∧ m rest = some (rep, r) ∧
        subOnceL m l = P ++ (rep ++ r) := by
  intro l
  induction l with
  | nil => intro h; simp [hasMatchL] at h
  | cons c cs ih =>
    intro h
    cases hm : m (c :: cs) with
    | some v =>
      obtain ⟨rep, r⟩ := v
      exact ⟨[], c :: cs, rep, r, by simp, hm, by simp [subOnceL, hm]⟩
    | none =>
      have h' : hasMatchL m cs = true := by simpa [hasMatchL, hm] using h
      obtain ⟨P, rest, rep, r, h1, h2s, h3⟩ := ih h'
      exact ⟨c :: P, rest, rep, r, by simp [h1], h2s, by simp [subOnceL, hm, h3]⟩

/-- Decomposition of a successful button match: the replacement is the
wrapper div, the whitespace run and the inserted button text, and the
input is the wrapper div, the whitespace run, the text-size-control div
and the rest. -/
theorem dmBtnMatch_shape {l rep r : List Char} (h : dmBtnMatch l = some (rep, r)) :
    ∃ w, w.all isPySpace = true ∧ rep = scDiv ++ (w ++ btnInsL) ∧
      l = scDiv ++ (w ++ (tscDiv ++ r)) := by
  cases h1 : matchLit scDiv l with
  | none =>
    rw [dmBtnMatch_none (by simp [litHere, h1])] at h
    exact absurd h (by simp)
  | some r1 =>
    cases h2 : matchLit tscDiv (r1.dropWhile isPySpace) with
    | none =>
      have hnone : dmBtnMatch l = none := by simp [dmBtnMatch, h1, h2]
      rw [hnone] at h
      exact absurd h (by simp)
    | some r2 =>
      have hval : dmBtnMatch l
          = some (scDiv ++ (r1.takeWhile isPySpace ++ btnInsL), r2) := by
        simp [dmBtnMatch, h1, h2]
      rw [hval] at h
      simp only [Option.some.injEq, Prod.mk.injEq] at h
      obtain ⟨hrep, hr⟩ := h
      refine ⟨r1.takeWhile isPySpace, all_takeWhile r1, hrep.symm, ?_⟩
      have e1 : l = scDiv ++ r1 := matchLit_eq_append h1
      have e2 : r1 = r1.takeWhile isPySpace ++ (tscDiv ++ r) := by
        conv_lhs => rw [← List.takeWhile_append_dropWhile isPySpace r1]
        rw [matchLit_eq_append h2, hr]
      conv_lhs => rw [e1, e2]

/-- Decomposition of a successful script match: group 1 is the three
literals separated by whitespace runs; the consumed middle whitespace
run is dropped and the replacement continues with the two newlines, the
dark-mode snippet, two newlines and the lucide tag. -/
theorem dmScriptMatch_shape {l rep r : List Char} (h : dmScriptMatch l = some (rep, r)) :
    ∃ w1 w2 w3 w4, w1.all isPySpace = true ∧ w2.all isPySpace = true ∧
      w3.all isPySpace = true ∧ w4.all isPySpace = true ∧
      rep = w1 ++ (wAdjust ++ (w2 ++ (closeParens ++ (w3 ++ (scriptClose ++
        (nl2L ++ (dmSnippetL ++ (nl2L ++ lucideTag)))))))) ∧
      l = w1 ++ (wAdjust ++ (w2 ++ (closeParens ++ (w3 ++ (scriptClose ++
        (w4 ++ (lucideTag ++ r))))))) := by
  cases h1 : matchLit wAdjust (l.dropWhile isPySpace) with
  | none =>
    rw [dmScriptMatch_none (by simp [litHere, h1])] at h
    exact absurd h (by simp)
  | some r1 =>
    cases h2 : matchLit closeParens (r1.dropWhile isPySpace) with
    | none =>
      have hnone : dmScriptMatch l = none := by simp [dmScriptMatch, h1, h2]
      rw [hnone] at h
      exact absurd h (by simp)
    | some r2 =>
      cases h3 : matchLit scriptClose (r2.dropWhile isPySpace) with
      | none =>
        have hnone : dmScriptMatch l = none := by simp [dmScriptMatch, h1, h2, h3]
        rw [hnone] at h
        exact absurd h (by simp)
      | some r3 =>
        cases h4 : matchLit lucideTag (r3.dropWhile isPySpace) with
        | none =>
          have hnone : dmScriptMatch l = none := by
            simp [dmScriptMatch, dmScriptFinish, h1, h2, h3, h4]
          rw [hnone] at h
          exact absurd h (by simp)
        | some r4 =>
          have hval : dmScriptMatch l = some ((l.takeWhile isPySpace ++ (wAdjust ++
              (r1.takeWhile isPySpace ++ (closeParens ++ (r2.takeWhile isPySpace ++
                scriptClose))))) ++ (nl2L ++ (dmSnippetL ++ (nl2L ++ lucideTag))), r4) := by
            simp [dmScriptMatch, dmScriptFinish, h1, h2, h3, h4]
          rw [hval] at h
          simp only [Option.some.injEq, Prod.mk.injEq] at h
          obtain ⟨hrep, hr⟩ := h
          refine ⟨l.takeWhile isPySpace, r1.takeWhile isPySpace, r2.takeWhile isPySpace,
            r3.takeWhile isPySpace, all_takeWhile l, all_takeWhile r1, all_takeWhile r2,
            all_takeWhile r3, by rw [← hrep]; simp [List.append_assoc], ?_⟩
          have e1 : l = l.takeWhile isPySpace ++ (wAdjust ++ r1) := by
            conv_lhs => rw [← List.takeWhile_append_dropWhile isPySpace l]
            rw [matchLit_eq_append h1]
          have e2 : r1 = r1.takeWhile isPySpace ++ (closeParens ++ r2) := by
            conv_lhs => rw [← List.takeWhile_append_dropWhile isPySpace r1]
            rw [matchLit_eq_append h2]
          have e3 : r2 = r2.takeWhile isPySpace ++ (scriptClose ++ r3) := by
            conv_lhs => rw [← List.takeWhile_append_dropWhile isPySpace r2]
            rw [matchLit_eq_append h3]
          have e4 : r3 = r3.takeWhile isPySpace ++ (lucideTag ++ r) := by
            conv_lhs => rw [← List.takeWhile_append_dropWhile isPySpace r3]
            rw [matchLit_eq_append h4, hr]
          conv_lhs => rw [e1, e2, e3, e4]

/-- Occurrence counts across the group-1 region of the script pattern
split off the left context and the tail. -/
theorem countOcc_script_tail {n : List Char} (hne : n ≠ [])
    (hws : headNonWs n = true) (hnc : noCross n wAdjust = true)
    (hcw : cleanBlock n wAdjust = true) (hb1 : cleanBlock n closeParens = true)
    (hb2 : cleanBlock n scriptClose = true)
    (hz0 : countOcc n wAdjust = 0) (hz1 : countOcc n closeParens = 0)
    (hz2 : countOcc n scriptClose = 0)
    {w2 w3 : List Char} (hw2 : w2.all isPySpace = true) (hw3 : w3.all isPySpace = true)
    (A X : List Char) :
    countOcc n (A ++ (wAdjust ++ (w2 ++ (closeParens ++ (w3 ++ (scriptClose ++ X))))))
      = countOcc n A + countOcc n X := by
  rw [countOcc_append_noCross hnc hne A _,
    countOcc_append_cleanBlock hne wAdjust hcw,
    countOcc_append_ws hws hw2,
    countOcc_append_cleanBlock hne closeParens hb1,
    countOcc_append_ws hws hw3,
    countOcc_append_cleanBlock hne scriptClose hb2]
  omega

/-- The script substitution preserves the occurrence count of any
needle that occurs in none of the pattern's literals nor in the
inserted dark-mode snippet. -/
theorem countOcc_script_preserved (n : List Char) (hne : n ≠ [])
    (hws : headNonWs n = true) (hnc : noCross n wAdjust = true)
    (hcw : cleanBlock n wAdjust = true) (hb1 : cleanBlock n closeParens = true)
    (hb2 : cleanBlock n scriptClose = true) (hb3 : cleanBlock n dmSnippetL = true)
    (hb4 : cleanBlock n lucideTag = true)
    (hz0 : countOcc n wAdjust = 0) (hz1 : countOcc n closeParens = 0)
    (hz2 : countOcc n scriptClose = 0) (hz3 : countOcc n dmSnippetL = 0)
    (hz4 : countOcc n lucideTag = 0)
    {l : List Char} (hms : hasMatchL dmScriptMatch l = true) :
    countOcc n (subOnceL dmScriptMatch l) = countOcc n l := by
  obtain ⟨Q, rest2, rep2, r2, hsplit2, hm2, hsub2⟩ := subOnceL_decomp hms
  obtain ⟨w1, w2, w3, w4, ha1, ha2, ha3, ha4, hrep2, hrest2⟩ := dmScriptMatch_shape hm2
  have e1 : l = (Q ++ w1) ++ (wAdjust ++ (w2 ++ (closeParens ++ (w3 ++ (scriptClose ++
      (w4 ++ (lucideTag ++ r2))))))) := by
    rw [hsplit2, hrest2]
    simp [List.append_assoc]
  have e2 : subOnceL dmScriptMatch l = (Q ++ w1) ++ (wAdjust ++ (w2 ++ (closeParens ++
      (w3 ++ (scriptClose ++ (nl2L ++ (dmSnippetL ++ (nl2L ++ (lucideTag ++ r2))))))))) := by
    rw [hsub2, hrep2]
    simp [List.append_assoc]
  have t1 : countOcc n (nl2L ++ (dmSnippetL ++ (nl2L ++ (lucideTag ++ r2))))
      = countOcc n r2 := by
    rw [countOcc_append_ws hws (by decide),
      countOcc_append_cleanBlock hne dmSnippetL hb3,
      countOcc_append_ws hws (by decide),
      countOcc_append_cleanBlock hne lucideTag hb4]
    omega
  have t2 : countOcc n (w4 ++ (lucideTag ++ r2)) = countOcc n r2 := by
    rw [countOcc_append_ws hws ha4,
      countOcc_append_cleanBlock hne lucideTag hb4]
    omega
  rw [e2, countOcc_script_tail hne hws hnc hcw hb1 hb2 hz0 hz1 hz2 ha2 ha3 _ _, t1]
  conv_rhs => rw [e1]
  rw [countOcc_script_tail hne hws hnc hcw hb1 hb2 hz0 hz1 hz2 ha2 ha3 _ _, t2]

/-- Claim C6 (amended): on state-D content in which the wrapper div is
followed somewhere, up to whitespace, by the text-size-control div (the
button-insertion pattern matches), add_dark_mode_toggle takes the
button-insertion branch and the result has exactly one theme-toggle
button marker (one more than before) while the number of wrapper
markers is unchanged — also in the sub-case where the wrapper-close
marker is absent and the script block is inserted as well. -/
theorem claim6_state_d (content : List Char)
    (htog : containsSub toggleMarker content = false)
    (h2 : containsSub tscDiv content = true)
    (h3 : containsSub scDiv content = true)
    (hbtn : containsSub themeBtn content = false)
    (hmatch : hasMatchL dmBtnMatch content = true) :
    (add_dark_mode_toggle content).1 = DMOutcome.addedButton ∧
    countOcc themeBtn ((add_dark_mode_toggle content).2) = 1 ∧
    countOcc scDiv ((add_dark_mode_toggle content).2) = countOcc scDiv content := by
  obtain ⟨P, rest, rep, r, hsplit, hm, hsub⟩ := subOnceL_decomp hmatch
  obtain ⟨w, hwall, hrep, hrest⟩ := dmBtnMatch_shape hm
  have hcontent : content = P ++ (scDiv ++ (w ++ (tscDiv ++ r))) := by
    rw [hsplit, hrest]
  have hc1 : subOnceL dmBtnMatch content = P ++ (scDiv ++ (w ++ (btnInsL ++ r))) := by
    rw [hsub, hrep]
    simp [List.append_assoc]
  have hbtnC : containsSub themeBtn (P ++ (scDiv ++ (w ++ (tscDiv ++ r)))) = false := by
    rw [← hcontent]
    exact hbtn
  have hc1t : countOcc themeBtn (P ++ (scDiv ++ (w ++ (btnInsL ++ r)))) = 1 := by
    rw [countOcc_append_noCross (by decide) (by decide) P (w ++ (btnInsL ++ r)),
      countOcc_append_cleanBlock (by decide) scDiv (by decide),
      countOcc_append_ws (by decide) hwall,
      countOcc_append_cleanBlock (by decide) btnInsL (by decide)]
    have hz1 : countOcc themeBtn P = 0 :=
      countOcc_eq_zero (containsSub_false_left hbtnC)
    have hz2 : countOcc themeBtn scDiv = 0 := by decide
    have hz3 : countOcc themeBtn btnInsL = 1 := by decide
    have hz4 : countOcc themeBtn r = 0 := by
      have hs1 := containsSub_false_right hbtnC
      have hs2 := containsSub_false_right hs1
      have hs3 := containsSub_false_right hs2
      exact countOcc_eq_zero (containsSub_false_right hs3)
    omega
  have hc1s : countOcc scDiv (P ++ (scDiv ++ (w ++ (btnInsL ++ r))))
      = countOcc scDiv content := by
    rw [hcontent,
      countOcc_append_noCross (by decide) (by decide) P (w ++ (btnInsL ++ r)),
      countOcc_append_noCross (by decide) (by decide) P (w ++ (tscDiv ++ r)),
      countOcc_append_cleanBlock (by decide) scDiv (by decide) (w ++ (btnInsL ++ r)),
      countOcc_append_cleanBlock (by decide) scDiv (by decide) (w ++ (tscDiv ++ r)),
      countOcc_append_ws (by decide) hwall, countOcc_append_ws (by decide) hwall,
      countOcc_append_cleanBlock (by decide) btnInsL (by decide),
      countOcc_append_cleanBlock (by decide) tscDiv (by decide)]
    have hz1 : countOcc scDiv btnInsL = 0 := by decide
    have hz2 : countOcc scDiv tscDiv = 0 := by decide
    omega
  have hbranch : add_dark_mode_toggle content = (DMOutcome.addedButton,
      if containsSub scClose (subOnceL dmBtnMatch content) = false then
        subOnceL dmScriptMatch (subOnceL dmBtnMatch content)
      else subOnceL dmBtnMatch content) := by
    simp [add_dark_mode_toggle, htog, h2, h3, hbtn]
  have h1v : (add_dark_mode_toggle content).1 = DMOutcome.addedButton := by
    rw [hbranch]
  have h2v : (add_dark_mode_toggle content).2 =
      (if containsSub scClose (subOnceL dmBtnMatch content) = false then
        subOnceL dmScriptMatch (subOnceL dmBtnMatch content)
      else subOnceL dmBtnMatch content) := by
    rw [hbranch]
  have hres : countOcc themeBtn ((add_dark_mode_toggle content).2) = 1 ∧
      countOcc scDiv ((add_dark_mode_toggle content).2) = countOcc scDiv content := by
    rw [h2v]
    simp only [hc1]
    by_cases hcl : containsSub scClose (P ++ (scDiv ++ (w ++ (btnInsL ++ r)))) = false
    · rw [if_pos hcl]
      by_cases hms : hasMatchL dmScriptMatch (P ++ (scDiv ++ (w ++ (btnInsL ++ r)))) = true
      · constructor
        · rw [countOcc_script_preserved themeBtn (by decide) (by decide) (by decide)
            (by decide) (by decide) (by decide) (by decide) (by decide) (by decide)
            (by decide) (by decide) (by decide) (by decide) hms]
          exact hc1t
        · rw [countOcc_script_preserved scDiv (by decide) (by decide) (by decide)
            (by decide) (by decide) (by decide) (by decide) (by decide) (by decide)
            (by decide) (by decide) (by decide) (by decide) hms]
          exact hc1s
      · have hms' : hasMatchL dmScriptMatch (P ++ (scDiv ++ (w ++ (btnInsL ++ r)))) = false := by
          simpa using hms
        rw [subOnceL_id _ hms']
        exact ⟨hc1t, hc1s⟩
    · rw [if_neg hcl]
      exact ⟨hc1t, hc1s⟩
  exact ⟨h1v, hres.1, hres.2⟩

/-- Claim C6 witness: a concrete state-D page in which the wrapper is
followed by a whitespace run and the text-size-control div, without the
wrapper-close marker, so the run also attempts the script insertion. -/
theorem claim6_witness :
    (containsSub toggleMarker
        (witDPre ++ (scDiv ++ (("\n  ").toList ++ (tscDiv ++ witDTail)))) = false ∧
      containsSub tscDiv
        (witDPre ++ (scDiv ++ (("\n  ").toList ++ (tscDiv ++ witDTail)))) = true ∧
      containsSub scDiv
        (witDPre ++ (scDiv ++ (("\n  ").toList ++ (tscDiv ++ witDTail)))) = true ∧
      containsSub themeBtn
        (witDPre ++ (scDiv ++ (("\n  ").toList ++ (tscDiv ++ witDTail)))) = false ∧
      hasMatchL dmBtnMatch
        (witDPre ++ (scDiv ++ (("\n  ").toList ++ (tscDiv ++ witDTail)))) = true) ∧
    ((add_dark_mode_toggle
        (witDPre ++ (scDiv ++ (("\n  ").toList ++ (tscDiv ++ witDTail))))).1
          = DMOutcome.addedButton ∧
      countOcc themeBtn ((add_dark_mode_toggle
        (witDPre ++ (scDiv ++ (("\n  ").toList ++ (tscDiv ++ witDTail))))).2) = 1 ∧
      countOcc scDiv ((add_dark_mode_toggle
        (witDPre ++ (scDiv ++ (("\n  ").toList ++ (tscDiv ++ witDTail))))).2)
          = countOcc scDiv
              (witDPre ++ (scDiv ++ (("\n  ").toList ++ (tscDiv ++ witDTail))))) :=
  ⟨⟨by decide, by decide, by decide, by decide, by decide⟩,
    claim6_state_d (witDPre ++ (scDiv ++ (("\n  ").toList ++ (tscDiv ++ witDTail))))
      (by decide) (by decide) (by decide) (by decide) (by decide)⟩
